import Mathlib

/-!
Verification development for the rs4 Forth-like virtual machine.

The definitions below are a shallow embedding of the Rust sources:
`mem.rs` (the arena), `machine_memory.rs` (memory layout, stacks,
dictionary writes, PNO buffer, reserved variables), `sized_string.rs`,
`readable_article.rs`, `stack_effect.rs` (the stack-effect harness),
`opcodes.rs` (the opcodes the theorems below reason about),
`builtin_words.rs` (the built-in word dispatcher arms reasoned about),
`input.rs` (word reading) and `literal.rs` (numeric literal parsing).

Machine integers are embedded as `Nat` with explicit `% 2 ^ 16` (resp.
`% 2 ^ 8`) wherever the Rust code performs wrapping arithmetic.  Rust
functions that mutate state through `&mut` receivers are embedded as
functions returning `State × Except e α`: the first component is the
post-state (also on the error path, which is what makes transactionality
claims non-trivial), the second the returned `Result`.  A Rust panic
(division by zero, out-of-bounds index, radix assertion) is modelled by
an outer `Option` with `none` for the panic.
-/

/-- Wrapping 16-bit addition, as `u16::wrapping_add`. -/
def wadd16 (a b : Nat) : Nat := (a + b) % 65536

/-- Wrapping 16-bit subtraction, as `u16::wrapping_sub` (both arguments
are reduced modulo `2 ^ 16` first, as the Rust values always are). -/
def wsub16 (a b : Nat) : Nat := (a % 65536 + 65536 - b % 65536) % 65536

/-- The arena of `mem.rs`: a flat byte buffer addressed by 16-bit
addresses.  Bytes are `Nat` values kept below 256 by `writeU8`. -/
structure Mem where
  content : Nat → Nat

/-- Error type of `mem.rs`: the attempted access range and the allowed
segment, both as inclusive bounds. -/
structure MemoryAccessError where
  accessStart : Nat
  accessEnd : Nat
  segStart : Nat
  segEnd : Nat
deriving DecidableEq

/-- The full address range of the arena, `Mem::address_range` (`0..=0xFFFF`). -/
def Mem.addressRangeStart (_m : Mem) : Nat := 0

/-- Upper end of `Mem::address_range`. -/
def Mem.addressRangeEnd (_m : Mem) : Nat := 65535

/-- `Mem::validate_access`: fails if the access range is inverted or not a
subrange of the segment. -/
def Mem.validateAccess (_m : Mem) (accessStart accessEnd segStart segEnd : Nat) :
    Except MemoryAccessError Unit :=
  if accessStart > accessEnd ∨ accessStart < segStart ∨ accessEnd > segEnd then
    Except.error (MemoryAccessError.mk accessStart accessEnd segStart segEnd)
  else
    Except.ok ()

/-- `Mem::read_u8`. -/
def Mem.readU8 (m : Mem) (offset : Nat) : Nat := m.content offset

/-- `Mem::write_u8`; the stored value is a byte (`% 256` mirrors the `u8`
argument type). -/
def Mem.writeU8 (m : Mem) (offset value : Nat) : Mem :=
  Mem.mk (fun x => if x = offset then value % 256 else m.content x)

/-- `Mem::read_u16`: little-endian pair of consecutive bytes. -/
def Mem.readU16 (m : Mem) (offset : Nat) : Nat :=
  m.readU8 offset + 256 * m.readU8 (offset + 1)

/-- `Mem::write_u16`: little-endian pair of consecutive bytes. -/
def Mem.writeU16 (m : Mem) (offset value : Nat) : Mem :=
  (m.writeU8 offset (value % 256)).writeU8 (offset + 1) (value / 256 % 256)

/-- `Mem::read_u32`: little-endian quadruple of consecutive bytes. -/
def Mem.readU32 (m : Mem) (offset : Nat) : Nat :=
  m.readU8 offset + 256 * m.readU8 (offset + 1) + 65536 * m.readU8 (offset + 2) +
    16777216 * m.readU8 (offset + 3)

/-- `Mem::write_u32`: little-endian quadruple of consecutive bytes. -/
def Mem.writeU32 (m : Mem) (offset value : Nat) : Mem :=
  (((m.writeU8 offset (value % 256)).writeU8 (offset + 1) (value / 256 % 256)).writeU8
    (offset + 2) (value / 65536 % 256)).writeU8 (offset + 3) (value / 16777216 % 256)

/-- The zeroed arena, `Mem::default`. -/
def Mem.zero : Mem := Mem.mk (fun _ => 0)

/-- `MachineState` of `machine_state.rs` (interpreter vs compiler). -/
inductive MachineState where
  | interpreter
  | compiler
deriving DecidableEq

/-- `InputError` of `input.rs` (the `StdIO` payload is irrelevant to the
embedded behaviour). -/
inductive InputError where
  | stdIOError
  | illegalOffset
  | bufferOverflow
deriving DecidableEq

/-- `MachineError` of `machine_error.rs`.  The `illegalCompilerState`
constructor is used by `builtin_words.rs`; its declaration is not among
the provided sources (the provided `machine_error.rs` is an earlier
iteration), so it is modelled from the spec error surface, which lists
`IllegalCompilerState` as a distinct error kind. -/
inductive MachineError where
  | memoryAccessError (e : MemoryAccessError)
  | inputError (e : InputError)
  | unexpectedInputEOF
  | outputError
  | illegalOpCodeError (address : Nat) (opCode : Nat)
  | illegalWord (a : Option Nat)
  | noArticle
  | unexpectedArticleType
  | illegalMode (expected actual : MachineState)
  | illegalCompilerState
  | exited
deriving DecidableEq

/-- `ReservedAddresses` of `machine_memory.rs`. -/
inductive ReservedAddresses where
  | hereVar
  | currentDefVar
  | stateVar
  | baseVar
  | wordBuffer
  | padBuffer
  | pnoBuffer
  | maxAddr
deriving DecidableEq

/-- The `u16` discriminants of `ReservedAddresses`. -/
def ReservedAddresses.intValue : ReservedAddresses → Nat
  | ReservedAddresses.hereVar => 0
  | ReservedAddresses.currentDefVar => 2
  | ReservedAddresses.stateVar => 4
  | ReservedAddresses.baseVar => 10
  | ReservedAddresses.wordBuffer => 256
  | ReservedAddresses.padBuffer => 512
  | ReservedAddresses.pnoBuffer => 640
  | ReservedAddresses.maxAddr => 767

/-- `MachineMemory` of `machine_memory.rs`: the arena plus the layout
registers. -/
structure MachineMemory where
  lastArticlePtr : Option Nat
  dataStackPtr : Nat
  stacksBorder : Nat
  callStackPtr : Nat
  reservedSpaceStart : Nat
  rawMemory : Mem

/-- `MachineMemory::get_reserved_address`. -/
def MachineMemory.getReservedAddress (m : MachineMemory) (r : ReservedAddresses) : Nat :=
  m.reservedSpaceStart + r.intValue

/-- `MachineMemory::get_dict_ptr` (the `HERE` variable). -/
def MachineMemory.getDictPtr (m : MachineMemory) : Nat :=
  m.rawMemory.readU16 (m.getReservedAddress ReservedAddresses.hereVar)

/-- `MachineMemory::set_dict_ptr`. -/
def MachineMemory.setDictPtr (m : MachineMemory) (address : Nat) : MachineMemory :=
  { m with rawMemory := m.rawMemory.writeU16 (m.getReservedAddress ReservedAddresses.hereVar) address }

/-- `MachineMemory::call_stack_depth` (in 16-bit words). -/
def MachineMemory.callStackDepth (m : MachineMemory) : Nat :=
  wsub16 m.reservedSpaceStart m.callStackPtr / 2

/-- `MachineMemory::data_stack_depth` (in 16-bit words). -/
def MachineMemory.dataStackDepth (m : MachineMemory) : Nat :=
  wsub16 m.stacksBorder m.dataStackPtr / 2

/-- `MachineMemory::get_call_stack_segment`, as an inclusive pair
(start, end). -/
def MachineMemory.getCallStackSegment (m : MachineMemory) : Nat × Nat :=
  (m.stacksBorder, m.reservedSpaceStart - 1)

/-- `MachineMemory::get_data_stack_segment`. -/
def MachineMemory.getDataStackSegment (m : MachineMemory) : Nat × Nat :=
  (m.getDictPtr, m.stacksBorder - 1)

/-- `MachineMemory::get_free_data_segment`. -/
def MachineMemory.getFreeDataSegment (m : MachineMemory) : Nat × Nat :=
  (m.getDictPtr, m.dataStackPtr - 1)

/-- `MachineMemory::get_used_dict_segment` (the end is a saturating
subtraction, which is exactly `Nat` subtraction). -/
def MachineMemory.getUsedDictSegment (m : MachineMemory) : Nat × Nat :=
  (m.rawMemory.addressRangeStart, m.getDictPtr - 1)

/-- `MachineMemory::push_u16`: pre-decrement the stack pointer, validate,
then write.  The post-state is returned also on the error path. -/
def MachineMemory.pushU16 (memory : Mem) (sp : Nat) (seg : Nat × Nat) (value : Nat) :
    (Mem × Nat) × Except MemoryAccessError Unit :=
  let nextSp := wsub16 sp 2
  match memory.validateAccess nextSp (wadd16 nextSp 1) seg.1 seg.2 with
  | Except.error e => ((memory, sp), Except.error e)
  | Except.ok _ => ((memory.writeU16 nextSp value, nextSp), Except.ok ())

/-- `MachineMemory::get_u16`: validated non-destructive read at the stack
pointer. -/
def MachineMemory.getU16 (memory : Mem) (sp : Nat) (seg : Nat × Nat) :
    Except MemoryAccessError Nat :=
  match memory.validateAccess sp (wadd16 sp 1) seg.1 seg.2 with
  | Except.error e => Except.error e
  | Except.ok _ => Except.ok (memory.readU16 sp)

/-- `MachineMemory::pop_u16`: validated read, then post-increment. -/
def MachineMemory.popU16 (memory : Mem) (sp : Nat) (seg : Nat × Nat) :
    (Mem × Nat) × Except MemoryAccessError Nat :=
  match MachineMemory.getU16 memory sp seg with
  | Except.error e => ((memory, sp), Except.error e)
  | Except.ok value => ((memory, wadd16 sp 2), Except.ok value)

/-- `MachineMemory::push_u32`. -/
def MachineMemory.pushU32 (memory : Mem) (sp : Nat) (seg : Nat × Nat) (value : Nat) :
    (Mem × Nat) × Except MemoryAccessError Unit :=
  let nextSp := wsub16 sp 4
  match memory.validateAccess nextSp (wadd16 nextSp 3) seg.1 seg.2 with
  | Except.error e => ((memory, sp), Except.error e)
  | Except.ok _ => ((memory.writeU32 nextSp value, nextSp), Except.ok ())

/-- `MachineMemory::get_u32`. -/
def MachineMemory.getU32 (memory : Mem) (sp : Nat) (seg : Nat × Nat) :
    Except MemoryAccessError Nat :=
  match memory.validateAccess sp (wadd16 sp 3) seg.1 seg.2 with
  | Except.error e => Except.error e
  | Except.ok _ => Except.ok (memory.readU32 sp)

/-- `MachineMemory::pop_u32`. -/
def MachineMemory.popU32 (memory : Mem) (sp : Nat) (seg : Nat × Nat) :
    (Mem × Nat) × Except MemoryAccessError Nat :=
  match MachineMemory.getU32 memory sp seg with
  | Except.error e => ((memory, sp), Except.error e)
  | Except.ok value => ((memory, wadd16 sp 4), Except.ok value)

/-- `MachineMemory::data_push_u16`. -/
def MachineMemory.dataPushU16 (m : MachineMemory) (value : Nat) :
    MachineMemory × Except MemoryAccessError Unit :=
  let r := MachineMemory.pushU16 m.rawMemory m.dataStackPtr m.getDataStackSegment value
  ({ m with rawMemory := r.1.1, dataStackPtr := r.1.2 }, r.2)

/-- `MachineMemory::data_pop_u16`. -/
def MachineMemory.dataPopU16 (m : MachineMemory) :
    MachineMemory × Except MemoryAccessError Nat :=
  let r := MachineMemory.popU16 m.rawMemory m.dataStackPtr m.getDataStackSegment
  ({ m with rawMemory := r.1.1, dataStackPtr := r.1.2 }, r.2)

/-- `MachineMemory::data_push_u32`. -/
def MachineMemory.dataPushU32 (m : MachineMemory) (value : Nat) :
    MachineMemory × Except MemoryAccessError Unit :=
  let r := MachineMemory.pushU32 m.rawMemory m.dataStackPtr m.getDataStackSegment value
  ({ m with rawMemory := r.1.1, dataStackPtr := r.1.2 }, r.2)

/-- `MachineMemory::data_pop_u32`. -/
def MachineMemory.dataPopU32 (m : MachineMemory) :
    MachineMemory × Except MemoryAccessError Nat :=
  let r := MachineMemory.popU32 m.rawMemory m.dataStackPtr m.getDataStackSegment
  ({ m with rawMemory := r.1.1, dataStackPtr := r.1.2 }, r.2)

/-- `MachineMemory::call_push_u16`. -/
def MachineMemory.callPushU16 (m : MachineMemory) (value : Nat) :
    MachineMemory × Except MemoryAccessError Unit :=
  let r := MachineMemory.pushU16 m.rawMemory m.callStackPtr m.getCallStackSegment value
  ({ m with rawMemory := r.1.1, callStackPtr := r.1.2 }, r.2)

/-- `MachineMemory::call_push_u32`. -/
def MachineMemory.callPushU32 (m : MachineMemory) (value : Nat) :
    MachineMemory × Except MemoryAccessError Unit :=
  let r := MachineMemory.pushU32 m.rawMemory m.callStackPtr m.getCallStackSegment value
  ({ m with rawMemory := r.1.1, callStackPtr := r.1.2 }, r.2)

/-- `MachineMemory::call_pop_u16`. -/
def MachineMemory.callPopU16 (m : MachineMemory) :
    MachineMemory × Except MemoryAccessError Nat :=
  let r := MachineMemory.popU16 m.rawMemory m.callStackPtr m.getCallStackSegment
  ({ m with rawMemory := r.1.1, callStackPtr := r.1.2 }, r.2)

/-- `MachineMemory::call_pop_u32`. -/
def MachineMemory.callPopU32 (m : MachineMemory) :
    MachineMemory × Except MemoryAccessError Nat :=
  let r := MachineMemory.popU32 m.rawMemory m.callStackPtr m.getCallStackSegment
  ({ m with rawMemory := r.1.1, callStackPtr := r.1.2 }, r.2)

/-- `MachineMemory::call_get_u16` (non-destructive peek). -/
def MachineMemory.callGetU16 (m : MachineMemory) : Except MemoryAccessError Nat :=
  MachineMemory.getU16 m.rawMemory m.callStackPtr m.getCallStackSegment

/-- `MachineMemory::call_get_u32`. -/
def MachineMemory.callGetU32 (m : MachineMemory) : Except MemoryAccessError Nat :=
  MachineMemory.getU32 m.rawMemory m.callStackPtr m.getCallStackSegment

/-- `MachineMemory::get_state`: 0 in the `STATE` variable means
interpreter, anything else compiler. -/
def MachineMemory.getState (m : MachineMemory) : MachineState :=
  if m.rawMemory.readU16 (m.getReservedAddress ReservedAddresses.stateVar) = 0 then
    MachineState.interpreter
  else
    MachineState.compiler

/-- `MachineMemory::set_state` (0 for interpreter, `0xFFFF` for compiler). -/
def MachineMemory.setState (m : MachineMemory) (state : MachineState) : MachineMemory :=
  let rawValue : Nat :=
    match state with
    | MachineState.interpreter => 0
    | MachineState.compiler => 65535
  { m with rawMemory :=
      m.rawMemory.writeU16 (m.getReservedAddress ReservedAddresses.stateVar) rawValue }

/-- `MachineMemory::get_base` (the `BASE` variable). -/
def MachineMemory.getBase (m : MachineMemory) : Nat :=
  m.rawMemory.readU16 (m.getReservedAddress ReservedAddresses.baseVar)

/-- `MachineMemory::get_current_word`: a stored value at or above `HERE`
is interpreted as `None`. -/
def MachineMemory.getCurrentWord (m : MachineMemory) : Option Nat :=
  let addr := m.rawMemory.readU16 (m.getReservedAddress ReservedAddresses.currentDefVar)
  if addr ≥ m.getDictPtr then none else some addr

/-- `MachineMemory::set_current_word` (`0xFFFF` is the `None` sentinel). -/
def MachineMemory.setCurrentWord (m : MachineMemory) (headerAddress : Option Nat) :
    MachineMemory :=
  let rawValue : Nat :=
    match headerAddress with
    | none => 65535
    | some addr => addr
  { m with rawMemory :=
      m.rawMemory.writeU16 (m.getReservedAddress ReservedAddresses.currentDefVar) rawValue }

/-- `MachineMemory::reset_builtin_vars`. -/
def MachineMemory.resetBuiltinVars (m : MachineMemory) : MachineMemory :=
  let raw1 := m.rawMemory.writeU16 (m.getReservedAddress ReservedAddresses.baseVar) 10
  let raw2 := raw1.writeU16 (m.getReservedAddress ReservedAddresses.hereVar)
    m.rawMemory.addressRangeStart
  let raw3 := raw2.writeU16 (m.getReservedAddress ReservedAddresses.stateVar) 0
  let raw4 := raw3.writeU16 (m.getReservedAddress ReservedAddresses.currentDefVar) 65535
  { m with rawMemory := raw4 }

/-- `MachineMemory::new` with the default layout config
(`max_call_stack_depth = 128`) and the zeroed arena:
`reserved_space_start = 0xFFFF - 767 = 64768`,
`stacks_border = 64768 - 2 * 128 = 64512`. -/
def MachineMemory.initial : MachineMemory :=
  MachineMemory.resetBuiltinVars
    (MachineMemory.mk none 64512 64512 64768 64768 Mem.zero)

/-- `ReadableSizedString::content_address` (`address.wrapping_add(1)`). -/
def ReadableSizedString.contentAddress (address : Nat) : Nat := wadd16 address 1

/-- `ReadableSizedString::validate_content`: when the length byte is
nonzero, validate the content range against the safe range. -/
def ReadableSizedString.validateContent (memory : Mem) (address segStart segEnd : Nat) :
    Except MemoryAccessError Unit :=
  let length := memory.readU8 address
  let contentAddress := ReadableSizedString.contentAddress address
  if length > 0 then
    memory.validateAccess contentAddress (wadd16 contentAddress (length - 1)) segStart segEnd
  else
    Except.ok ()

/-- `ReadableSizedString::new`: validate the header byte, then the
content range.  The returned value is the string address itself. -/
def ReadableSizedString.new (memory : Mem) (address segStart segEnd : Nat) :
    Except MemoryAccessError Nat :=
  match memory.validateAccess address address segStart segEnd with
  | Except.error e => Except.error e
  | Except.ok _ =>
    match ReadableSizedString.validateContent memory address segStart segEnd with
    | Except.error e => Except.error e
    | Except.ok _ => Except.ok address

/-- `ReadableSizedString::as_bytes`: the content bytes as a list (the
Rust slice uses plain `usize` addition). -/
def ReadableSizedString.asBytes (memory : Mem) (address : Nat) : List Nat :=
  (List.range (memory.readU8 address)).map (fun i => memory.readU8 (address + 1 + i))

/-- Inclusive end of `ReadableSizedString::full_range`
(`address + 1 + length`, wrapping). -/
def ReadableSizedString.fullRangeEnd (memory : Mem) (address : Nat) : Nat :=
  wadd16 (wadd16 address 1) (memory.readU8 address)

/-- `MachineMemory::dict_write_u8`: validate one byte at `HERE` against
the free-data segment, write it, advance `HERE`. -/
def MachineMemory.dictWriteU8 (m : MachineMemory) (value : Nat) :
    MachineMemory × Except MemoryAccessError Unit :=
  let dictPtr := m.getDictPtr
  match m.rawMemory.validateAccess dictPtr dictPtr m.getFreeDataSegment.1 m.getFreeDataSegment.2 with
  | Except.error e => (m, Except.error e)
  | Except.ok _ =>
    (MachineMemory.setDictPtr { m with rawMemory := m.rawMemory.writeU8 dictPtr value }
      (wadd16 dictPtr 1), Except.ok ())

/-- `MachineMemory::dict_write_u16`. -/
def MachineMemory.dictWriteU16 (m : MachineMemory) (value : Nat) :
    MachineMemory × Except MemoryAccessError Unit :=
  let dictPtr := m.getDictPtr
  match m.rawMemory.validateAccess dictPtr (wadd16 dictPtr 1) m.getFreeDataSegment.1
      m.getFreeDataSegment.2 with
  | Except.error e => (m, Except.error e)
  | Except.ok _ =>
    (MachineMemory.setDictPtr { m with rawMemory := m.rawMemory.writeU16 dictPtr value }
      (wadd16 dictPtr 2), Except.ok ())

/-- `MachineMemory::dict_write_u32`. -/
def MachineMemory.dictWriteU32 (m : MachineMemory) (value : Nat) :
    MachineMemory × Except MemoryAccessError Unit :=
  let dictPtr := m.getDictPtr
  match m.rawMemory.validateAccess dictPtr (wadd16 dictPtr 3) m.getFreeDataSegment.1
      m.getFreeDataSegment.2 with
  | Except.error e => (m, Except.error e)
  | Except.ok _ =>
    (MachineMemory.setDictPtr { m with rawMemory := m.rawMemory.writeU32 dictPtr value }
      (wadd16 dictPtr 4), Except.ok ())

/-- `MachineMemory::dict_write_opcode` (the opcode is its `u8`
discriminant). -/
def MachineMemory.dictWriteOpcodeByte (m : MachineMemory) (value : Nat) :
    MachineMemory × Except MemoryAccessError Unit :=
  m.dictWriteU8 value

/-- The ascending byte-copy loop of `MachineMemory::dict_write_sized_string`:
byte `i` of the source is read after the first `i` bytes have been
written (the ranges may overlap). -/
def dictCopyLoop (dstBase srcBase : Nat) (count : Nat) (mem : Mem) : Mem :=
  match count with
  | 0 => mem
  | k + 1 =>
    let prev := dictCopyLoop dstBase srcBase k mem
    prev.writeU8 (wadd16 dstBase k) (prev.readU8 (wadd16 srcBase k))

/-- `MachineMemory::dict_write_sized_string`: validate the source string
against the whole arena, validate the destination against the free-data
segment, copy length byte and content, advance `HERE`. -/
def MachineMemory.dictWriteSizedString (m : MachineMemory) (address : Nat) :
    MachineMemory × Except MemoryAccessError Unit :=
  let dictPtr := m.getDictPtr
  match ReadableSizedString.new m.rawMemory address m.rawMemory.addressRangeStart
      m.rawMemory.addressRangeEnd with
  | Except.error e => (m, Except.error e)
  | Except.ok _ =>
    let length := m.rawMemory.readU8 address
    let contentAddress := ReadableSizedString.contentAddress address
    match m.rawMemory.validateAccess dictPtr (wadd16 (wadd16 dictPtr 1) length)
        m.getFreeDataSegment.1 m.getFreeDataSegment.2 with
    | Except.error e => (m, Except.error e)
    | Except.ok _ =>
      let raw1 := m.rawMemory.writeU8 dictPtr length
      let raw2 := dictCopyLoop (wadd16 dictPtr 1) contentAddress length raw1
      (MachineMemory.setDictPtr { m with rawMemory := raw2 }
        (wadd16 (wadd16 dictPtr 1) length), Except.ok ())

/-- `MachineMemory::create_forward_reference`: write the `0xDEAD`
placeholder at `HERE` and return the slot address. -/
def MachineMemory.createForwardReference (m : MachineMemory) :
    MachineMemory × Except MemoryAccessError Nat :=
  let addr := m.getDictPtr
  match m.dictWriteU16 57005 with
  | (m2, Except.error e) => (m2, Except.error e)
  | (m2, Except.ok _) => (m2, Except.ok addr)

/-- `MachineMemory::resolve_forward_reference`: validate the slot against
the used dictionary, then store the current `HERE` there. -/
def MachineMemory.resolveForwardReference (m : MachineMemory) (referenceAddress : Nat) :
    MachineMemory × Except MemoryAccessError Unit :=
  match m.rawMemory.validateAccess referenceAddress (referenceAddress + 1)
      m.getUsedDictSegment.1 m.getUsedDictSegment.2 with
  | Except.error e => (m, Except.error e)
  | Except.ok _ =>
    ({ m with rawMemory := m.rawMemory.writeU16 referenceAddress m.getDictPtr }, Except.ok ())

/-- Inclusive bounds of `MachineMemory::get_pno_buffer_range`. -/
def MachineMemory.getPnoBufferRange (m : MachineMemory) : Nat × Nat :=
  let startAddress := m.getReservedAddress ReservedAddresses.pnoBuffer
  (startAddress, wadd16 startAddress 127)

/-- Inclusive bounds of `MachineMemory::get_pno_content_range`. -/
def MachineMemory.getPnoContentRange (m : MachineMemory) : Nat × Nat :=
  let fullRange := m.getPnoBufferRange
  (wadd16 fullRange.1 1, fullRange.2)

/-- `MachineMemory::clear_pno_buffer`. -/
def MachineMemory.clearPnoBuffer (m : MachineMemory) : MachineMemory :=
  { m with rawMemory :=
      m.rawMemory.writeU8 (m.getReservedAddress ReservedAddresses.pnoBuffer) 0 }

/-- `MachineMemory::pno_put`: validate the backward write position inside
the PNO content range, write the byte, bump the length byte. -/
def MachineMemory.pnoPut (m : MachineMemory) (ch : Nat) :
    MachineMemory × Except MemoryAccessError Unit :=
  let currentSize := m.rawMemory.readU8 (m.getReservedAddress ReservedAddresses.pnoBuffer)
  let contentRange := m.getPnoContentRange
  let writeAddress := wsub16 contentRange.2 currentSize
  match m.rawMemory.validateAccess writeAddress writeAddress contentRange.1 contentRange.2 with
  | Except.error e => (m, Except.error e)
  | Except.ok _ =>
    let raw1 := m.rawMemory.writeU8 writeAddress ch
    let raw2 := raw1.writeU8 (m.getReservedAddress ReservedAddresses.pnoBuffer)
      ((currentSize + 1) % 256)
    ({ m with rawMemory := raw2 }, Except.ok ())

/-- `MachineMemory::pno_finish`: address of the first stored byte and the
current length. -/
def MachineMemory.pnoFinish (m : MachineMemory) : Nat × Nat :=
  let size := m.rawMemory.readU8 (m.getReservedAddress ReservedAddresses.pnoBuffer)
  (wadd16 (wsub16 m.getPnoContentRange.2 size) 1, size)

/-- `ReadableArticle::name_address` (`header_address.wrapping_add(2)`). -/
def ReadableArticle.nameAddress (headerAddress : Nat) : Nat := wadd16 headerAddress 2

/-- `ReadableArticle::body_address`:
`name_address + name_length + 1` with wrapping adds. -/
def ReadableArticle.bodyAddress (memory : Mem) (headerAddress : Nat) : Nat :=
  wadd16 (wadd16 (ReadableArticle.nameAddress headerAddress)
    (memory.readU8 (ReadableArticle.nameAddress headerAddress))) 1

/-- `ReadableArticle::previous_address`: the stored previous header
address. -/
def ReadableArticle.previousAddress (memory : Mem) (headerAddress : Nat) : Nat :=
  memory.readU16 headerAddress

/-- `ReadableArticle::new`: validate the minimal header
(`header..=header+3`), then the name string content.  Returns the header
address. -/
def ReadableArticle.new (memory : Mem) (headerAddress segStart segEnd : Nat) :
    Except MemoryAccessError Nat :=
  match memory.validateAccess headerAddress (headerAddress + 3) segStart segEnd with
  | Except.error e => Except.error e
  | Except.ok _ =>
    match ReadableSizedString.validateContent memory (ReadableArticle.nameAddress headerAddress)
        segStart segEnd with
    | Except.error e => Except.error e
    | Except.ok _ => Except.ok headerAddress

/-- `ReadableArticle::previous_article`: `None` when the stored previous
pointer is at or above the current header, else a validated article at
the previous pointer. -/
def ReadableArticle.previousArticle (memory : Mem) (headerAddress segStart segEnd : Nat) :
    Except MemoryAccessError (Option Nat) :=
  let prevAddress := ReadableArticle.previousAddress memory headerAddress
  if prevAddress ≥ headerAddress then
    Except.ok none
  else
    match ReadableArticle.new memory prevAddress segStart segEnd with
    | Except.error e => Except.error e
    | Except.ok a => Except.ok (some a)

/-- The `StackEffect` trait data of `stack_effect.rs`: sizes of the
consumed and produced stack fragments in 16-bit words. -/
structure StackEffect where
  inWords : Nat
  outWords : Nat

/-- `StackEffect::max_ptr`:
`base.wrapping_add(in_words.wrapping_mul(2).wrapping_sub(1))`. -/
def StackEffect.maxPtr (e : StackEffect) (base : Nat) : Nat :=
  wadd16 base (wsub16 (e.inWords * 2 % 65536) 1)

/-- `StackEffect::resulting_ptr`:
`max_ptr.wrapping_sub(out_words.wrapping_mul(2)).wrapping_add(1)`. -/
def StackEffect.resultingPtr (e : StackEffect) (base : Nat) : Nat :=
  wadd16 (wsub16 (e.maxPtr base) (e.outWords * 2 % 65536)) 1

/-- `StackEffect::min_ptr`. -/
def StackEffect.minPtr (e : StackEffect) (base : Nat) : Nat :=
  if e.inWords > e.outWords then base else e.resultingPtr base

/-- `StackEffect::validate_access`: the touched byte range against a
segment. -/
def StackEffect.validateAccess (e : StackEffect) (mem : Mem) (ptr segStart segEnd : Nat) :
    Except MemoryAccessError Unit :=
  mem.validateAccess (e.minPtr ptr) (e.maxPtr ptr) segStart segEnd

/-- `Effect::validate` of the `stack_effect!` macro: the touched range is
validated against the current data-stack segment at the current data
stack pointer, before any getter or setter runs. -/
def effectValidate (e : StackEffect) (m : MachineMemory) : Except MemoryAccessError Unit :=
  e.validateAccess m.rawMemory m.dataStackPtr m.getDataStackSegment.1 m.getDataStackSegment.2

/-- `Effect::commit` of the `stack_effect!` macro: the data stack pointer
is set to the resulting pointer. -/
def effectCommit (e : StackEffect) (m : MachineMemory) : MachineMemory :=
  { m with dataStackPtr := e.resultingPtr m.dataStackPtr }

/-- The all-or-nothing usage pattern of the harness: validate first; on
failure return the machine memory unchanged with the error; on success
run the getters/setters (`body`) and commit. -/
def effectApply (e : StackEffect) (m : MachineMemory) (body : MachineMemory → MachineMemory) :
    MachineMemory × Except MemoryAccessError Unit :=
  match effectValidate e m with
  | Except.error err => (m, Except.error err)
  | Except.ok _ => (effectCommit e (body m), Except.ok ())

/-- The machine: its memory plus the input byte stream (not yet consumed
bytes) and the output byte stream (bytes written so far). -/
structure Machine where
  memory : MachineMemory
  input : List Nat
  output : List Nat

/-- Modelled from the spec: `Machine::expect_state` is called by
`builtin_words.rs` but its definition is not among the provided sources
(the provided `machine.rs` is an earlier iteration carrying a host-side
`MachineMode` with the analogous `expect_mode`).  The spec says
immediate-only words require the matching state via `expect_state`, else
`IllegalMode{expected, actual}`. -/
def Machine.expectState (machine : Machine) (expected : MachineState) :
    Except MachineError Unit :=
  if machine.memory.getState ≠ expected then
    Except.error (MachineError.illegalMode expected machine.memory.getState)
  else
    Except.ok ()

/-- The opcode ISA of `opcodes.rs`. -/
inductive OpCode where
  | noop
  | defaultArticleStart
  | returnOp
  | call
  | literal16
  | literalString
  | goTo
  | goToIfZ
  | execBuiltin
  | callPop16
  | callPush16
  | callPop32
  | callPush32
  | callRead16
  | callRead32
  | dup32
  | over16
  | over32
  | swap16
  | swap32
  | dup16
  | add16
  | sub16
  | mul16
  | div16
  | load16
  | store16
  | load8
  | store8
  | load32
  | store32
  | drop16
  | invert16
  | and16
  | or16
  | xor16
  | eq16
  | lt16
  | gt16
  | rot16
  | i16ToI32
  | abs16
  | emit
  | pnoInit
  | pnoPut
  | pnoFinish
  | pnoPutDigit
  | emitString
deriving DecidableEq

/-- The `u8` discriminants of `OpCode`. -/
def OpCode.intValue : OpCode → Nat
  | OpCode.noop => 0
  | OpCode.defaultArticleStart => 1
  | OpCode.returnOp => 2
  | OpCode.call => 3
  | OpCode.literal16 => 4
  | OpCode.literalString => 5
  | OpCode.goTo => 6
  | OpCode.goToIfZ => 7
  | OpCode.execBuiltin => 8
  | OpCode.callPop16 => 9
  | OpCode.callPush16 => 10
  | OpCode.callPop32 => 11
  | OpCode.callPush32 => 12
  | OpCode.callRead16 => 13
  | OpCode.callRead32 => 14
  | OpCode.dup32 => 123
  | OpCode.over16 => 124
  | OpCode.over32 => 125
  | OpCode.swap16 => 126
  | OpCode.swap32 => 127
  | OpCode.dup16 => 128
  | OpCode.add16 => 129
  | OpCode.sub16 => 130
  | OpCode.mul16 => 131
  | OpCode.div16 => 132
  | OpCode.load16 => 133
  | OpCode.store16 => 134
  | OpCode.load8 => 135
  | OpCode.store8 => 136
  | OpCode.load32 => 137
  | OpCode.store32 => 138
  | OpCode.drop16 => 139
  | OpCode.invert16 => 140
  | OpCode.and16 => 141
  | OpCode.or16 => 142
  | OpCode.xor16 => 143
  | OpCode.eq16 => 144
  | OpCode.lt16 => 145
  | OpCode.gt16 => 146
  | OpCode.rot16 => 147
  | OpCode.i16ToI32 => 148
  | OpCode.abs16 => 149
  | OpCode.emit => 200
  | OpCode.pnoInit => 201
  | OpCode.pnoPut => 202
  | OpCode.pnoFinish => 203
  | OpCode.pnoPutDigit => 204
  | OpCode.emitString => 205

/-- `MachineMemory::dict_write_opcode`. -/
def MachineMemory.dictWriteOpcode (m : MachineMemory) (op : OpCode) :
    MachineMemory × Except MemoryAccessError Unit :=
  m.dictWriteU8 op.intValue

/-- Modelled from the spec: the `Stackable` impl for `u8` used by the
`Store8` arm is not among the provided sources (`stack_effect.rs` only
contains the `u16` and `u32` impls); the spec fixes every slot type at a
whole 16-bit word, and `Store8` stores one byte, so the `u8` slot read
takes the low byte of the 16-bit cell. -/
def stackReadLowByte (memory : Mem) (address : Nat) : Nat :=
  memory.readU16 address % 256

/-- `OpCode::execute` for `GoToIfZ`: pop the flag, then (only when it is
zero) validate the branch-target operand against the used dictionary. -/
def OpCode.execGoToIfZ (machine : Machine) (address : Nat) :
    Machine × Except MachineError Nat :=
  match machine.memory.dataPopU16 with
  | (mem2, Except.error e) =>
    ({ machine with memory := mem2 }, Except.error (MachineError.memoryAccessError e))
  | (mem2, Except.ok value) =>
    let machine2 := { machine with memory := mem2 }
    if value = 0 then
      match mem2.rawMemory.validateAccess (address + 1) (address + 2)
          mem2.getUsedDictSegment.1 mem2.getUsedDictSegment.2 with
      | Except.error e => (machine2, Except.error (MachineError.memoryAccessError e))
      | Except.ok _ => (machine2, Except.ok (mem2.rawMemory.readU16 (address + 1)))
    else
      (machine2, Except.ok (address + 3))

/-- `OpCode::execute` for `DefaultArticleStart`: a no-op in interpreter
state; in compiler state emit `Call (address + 1)` into the dictionary,
then fail with `Exited` if the call stack is empty, else pop the call
stack for the next address. -/
def OpCode.execDefaultArticleStart (machine : Machine) (address : Nat) :
    Machine × Except MachineError Nat :=
  match machine.memory.getState with
  | MachineState.interpreter => (machine, Except.ok (address + 1))
  | MachineState.compiler =>
    match machine.memory.dictWriteOpcode OpCode.call with
    | (mem2, Except.error e) =>
      ({ machine with memory := mem2 }, Except.error (MachineError.memoryAccessError e))
    | (mem2, Except.ok _) =>
      match mem2.dictWriteU16 (address + 1) with
      | (mem3, Except.error e) =>
        ({ machine with memory := mem3 }, Except.error (MachineError.memoryAccessError e))
      | (mem3, Except.ok _) =>
        if mem3.callStackDepth = 0 then
          ({ machine with memory := mem3 }, Except.error MachineError.exited)
        else
          match mem3.callPopU16 with
          | (mem4, Except.error e) =>
            ({ machine with memory := mem4 }, Except.error (MachineError.memoryAccessError e))
          | (mem4, Except.ok v) => ({ machine with memory := mem4 }, Except.ok v)

/-- The `(address:Address => value:u16)` effect of `Load8`/`Load16`. -/
def effectLoad16 : StackEffect := StackEffect.mk 1 1

/-- The `(address:Address => value:u32)` effect of `Load32`. -/
def effectLoad32 : StackEffect := StackEffect.mk 1 2

/-- The `(value, address =>)` effect of `Store8`/`Store16`. -/
def effectStore16 : StackEffect := StackEffect.mk 2 0

/-- The `(value:u32, address =>)` effect of `Store32`. -/
def effectStore32 : StackEffect := StackEffect.mk 3 0

/-- The `(a:u16, b:u16 => c:u16)` effect of the binary arithmetic
opcodes. -/
def effectBinOp : StackEffect := StackEffect.mk 2 1

/-- The `(i:u32 => o:u32)` effect of `PnoPutDigit`. -/
def effectPnoPutDigit : StackEffect := StackEffect.mk 2 2

/-- `OpCode::execute` for `Load8`: validate the stack effect, read the
target address slot, validate one byte at the target against the whole
arena, write the loaded byte into the output slot, commit, and return
`address + 1`. -/
def OpCode.execLoad8 (machine : Machine) (address : Nat) :
    Machine × Except MachineError Nat :=
  match effectValidate effectLoad16 machine.memory with
  | Except.error e => (machine, Except.error (MachineError.memoryAccessError e))
  | Except.ok _ =>
    let sp := machine.memory.dataStackPtr
    let targetAddress := machine.memory.rawMemory.readU16 sp
    match machine.memory.rawMemory.validateAccess targetAddress targetAddress
        machine.memory.rawMemory.addressRangeStart machine.memory.rawMemory.addressRangeEnd with
    | Except.error e => (machine, Except.error (MachineError.memoryAccessError e))
    | Except.ok _ =>
      let value := machine.memory.rawMemory.readU8 targetAddress
      let raw := machine.memory.rawMemory.writeU16 (effectLoad16.resultingPtr sp) value
      let mem2 := effectCommit effectLoad16 { machine.memory with rawMemory := raw }
      ({ machine with memory := mem2 }, Except.ok (address + 1))

/-- `OpCode::execute` for `Store8`. -/
def OpCode.execStore8 (machine : Machine) (address : Nat) :
    Machine × Except MachineError Nat :=
  match effectValidate effectStore16 machine.memory with
  | Except.error e => (machine, Except.error (MachineError.memoryAccessError e))
  | Except.ok _ =>
    let sp := machine.memory.dataStackPtr
    let value := stackReadLowByte machine.memory.rawMemory (sp + 2)
    let targetAddress := machine.memory.rawMemory.readU16 sp
    match machine.memory.rawMemory.validateAccess targetAddress targetAddress
        machine.memory.rawMemory.addressRangeStart machine.memory.rawMemory.addressRangeEnd with
    | Except.error e => (machine, Except.error (MachineError.memoryAccessError e))
    | Except.ok _ =>
      let raw := machine.memory.rawMemory.writeU8 targetAddress value
      let mem2 := effectCommit effectStore16 { machine.memory with rawMemory := raw }
      ({ machine with memory := mem2 }, Except.ok (address + 1))

/-- `OpCode::execute` for `Load16` (two target bytes, wrapping end). -/
def OpCode.execLoad16 (machine : Machine) (address : Nat) :
    Machine × Except MachineError Nat :=
  match effectValidate effectLoad16 machine.memory with
  | Except.error e => (machine, Except.error (MachineError.memoryAccessError e))
  | Except.ok _ =>
    let sp := machine.memory.dataStackPtr
    let targetAddress := machine.memory.rawMemory.readU16 sp
    match machine.memory.rawMemory.validateAccess targetAddress (wadd16 targetAddress 1)
        machine.memory.rawMemory.addressRangeStart machine.memory.rawMemory.addressRangeEnd with
    | Except.error e => (machine, Except.error (MachineError.memoryAccessError e))
    | Except.ok _ =>
      let value := machine.memory.rawMemory.readU16 targetAddress
      let raw := machine.memory.rawMemory.writeU16 (effectLoad16.resultingPtr sp) value
      let mem2 := effectCommit effectLoad16 { machine.memory with rawMemory := raw }
      ({ machine with memory := mem2 }, Except.ok (address + 1))

/-- `OpCode::execute` for `Store16`. -/
def OpCode.execStore16 (machine : Machine) (address : Nat) :
    Machine × Except MachineError Nat :=
  match effectValidate effectStore16 machine.memory with
  | Except.error e => (machine, Except.error (MachineError.memoryAccessError e))
  | Except.ok _ =>
    let sp := machine.memory.dataStackPtr
    let value := machine.memory.rawMemory.readU16 (sp + 2)
    let targetAddress := machine.memory.rawMemory.readU16 sp
    match machine.memory.rawMemory.validateAccess targetAddress (wadd16 targetAddress 1)
        machine.memory.rawMemory.addressRangeStart machine.memory.rawMemory.addressRangeEnd with
    | Except.error e => (machine, Except.error (MachineError.memoryAccessError e))
    | Except.ok _ =>
      let raw := machine.memory.rawMemory.writeU16 targetAddress value
      let mem2 := effectCommit effectStore16 { machine.memory with rawMemory := raw }
      ({ machine with memory := mem2 }, Except.ok (address + 1))

/-- `OpCode::execute` for `Load32` (four target bytes, wrapping end). -/
def OpCode.execLoad32 (machine : Machine) (address : Nat) :
    Machine × Except MachineError Nat :=
  match effectValidate effectLoad32 machine.memory with
  | Except.error e => (machine, Except.error (MachineError.memoryAccessError e))
  | Except.ok _ =>
    let sp := machine.memory.dataStackPtr
    let targetAddress := machine.memory.rawMemory.readU16 sp
    match machine.memory.rawMemory.validateAccess targetAddress (wadd16 targetAddress 3)
        machine.memory.rawMemory.addressRangeStart machine.memory.rawMemory.addressRangeEnd with
    | Except.error e => (machine, Except.error (MachineError.memoryAccessError e))
    | Except.ok _ =>
      let value := machine.memory.rawMemory.readU32 targetAddress
      let raw := machine.memory.rawMemory.writeU32 (effectLoad32.resultingPtr sp) value
      let mem2 := effectCommit effectLoad32 { machine.memory with rawMemory := raw }
      ({ machine with memory := mem2 }, Except.ok (address + 1))

/-- `OpCode::execute` for `Store32`. -/
def OpCode.execStore32 (machine : Machine) (address : Nat) :
    Machine × Except MachineError Nat :=
  match effectValidate effectStore32 machine.memory with
  | Except.error e => (machine, Except.error (MachineError.memoryAccessError e))
  | Except.ok _ =>
    let sp := machine.memory.dataStackPtr
    let value := machine.memory.rawMemory.readU32 (sp + 2)
    let targetAddress := machine.memory.rawMemory.readU16 sp
    match machine.memory.rawMemory.validateAccess targetAddress (wadd16 targetAddress 3)
        machine.memory.rawMemory.addressRangeStart machine.memory.rawMemory.addressRangeEnd with
    | Except.error e => (machine, Except.error (MachineError.memoryAccessError e))
    | Except.ok _ =>
      let raw := machine.memory.rawMemory.writeU32 targetAddress value
      let mem2 := effectCommit effectStore32 { machine.memory with rawMemory := raw }
      ({ machine with memory := mem2 }, Except.ok (address + 1))

/-- `OpCode::execute` for `Div16`: `wrapping_div` panics on a zero
divisor, modelled by the outer `none`. -/
def OpCode.execDiv16 (machine : Machine) (address : Nat) :
    Option (Machine × Except MachineError Nat) :=
  match effectValidate effectBinOp machine.memory with
  | Except.error e => some (machine, Except.error (MachineError.memoryAccessError e))
  | Except.ok _ =>
    let sp := machine.memory.dataStackPtr
    let a := machine.memory.rawMemory.readU16 (sp + 2)
    let b := machine.memory.rawMemory.readU16 sp
    if b = 0 then
      none
    else
      let raw := machine.memory.rawMemory.writeU16 (effectBinOp.resultingPtr sp) (a / b)
      let mem2 := effectCommit effectBinOp { machine.memory with rawMemory := raw }
      some ({ machine with memory := mem2 }, Except.ok (address + 1))

/-- `OpCode::execute` for `PnoPutDigit`: validate and read the `u32`
operand, read `BASE` (a zero base panics on `i % base`, modelled by the
outer `none`), push back the quotient and commit, then prepend the
ASCII digit with `pno_put`, which can still fail after the commit. -/
def OpCode.execPnoPutDigit (machine : Machine) (address : Nat) :
    Option (Machine × Except MachineError Nat) :=
  match effectValidate effectPnoPutDigit machine.memory with
  | Except.error e => some (machine, Except.error (MachineError.memoryAccessError e))
  | Except.ok _ =>
    let sp := machine.memory.dataStackPtr
    let base := machine.memory.getBase
    let i := machine.memory.rawMemory.readU32 sp
    if base = 0 then
      none
    else
      let digit := i % base % 256
      let raw := machine.memory.rawMemory.writeU32 (effectPnoPutDigit.resultingPtr sp) (i / base)
      let mem2 := effectCommit effectPnoPutDigit { machine.memory with rawMemory := raw }
      let digitChar :=
        if digit < 10 then 48 + digit else (((65 + digit) % 256) + 256 - 10) % 256
      match mem2.pnoPut digitChar with
      | (mem3, Except.error e) =>
        some ({ machine with memory := mem3 }, Except.error (MachineError.memoryAccessError e))
      | (mem3, Except.ok _) => some ({ machine with memory := mem3 }, Except.ok (address + 1))

/-- `is_whitespace` of `input.rs` (`u8::is_ascii_whitespace`). -/
def isWhitespaceByte (chr : Nat) : Bool :=
  chr = 32 ∨ chr = 9 ∨ chr = 10 ∨ chr = 12 ∨ chr = 13

/-- The second loop of `Input::read_word`: accumulate non-whitespace
bytes; a byte beyond the buffer capacity fails with `BufferOverflow`
(after consuming the byte), whitespace or EOF ends the word.  Returns
the remaining input, the bytes written to the buffer, and the result. -/
def readWordLoop (input : List Nat) (capacity : Nat) (acc : List Nat) :
    List Nat × List Nat × Except InputError Unit :=
  match input with
  | [] => ([], acc, Except.ok ())
  | chr :: rest =>
    if isWhitespaceByte chr then
      (rest, acc, Except.ok ())
    else if acc.length ≥ capacity then
      (rest, acc, Except.error InputError.bufferOverflow)
    else
      readWordLoop rest capacity (acc ++ [chr])

/-- `Input::read_word`: skip leading whitespace, then read the token. -/
def readWord (input : List Nat) (capacity : Nat) :
    List Nat × List Nat × Except InputError Unit :=
  match input with
  | [] => ([], [], Except.ok ())
  | chr :: rest =>
    if isWhitespaceByte chr then
      readWord rest capacity
    else
      readWordLoop rest capacity [chr]

/-- Write a list of bytes at consecutive addresses (the buffer slice of
`read_word` starts at the word-buffer content address). -/
def Mem.writeBytes (mem : Mem) (address : Nat) : List Nat → Mem
  | [] => mem
  | b :: rest => (mem.writeU8 address b).writeBytes (address + 1) rest

/-- `MachineMemory::read_input_word`: read a word into the reserved word
buffer (255 content bytes), store its length byte, and return the buffer
address when the word is non-empty.  The input is threaded through
explicitly; the buffer-slice bytes are written also when `read_word`
fails with `BufferOverflow`. -/
def MachineMemory.readInputWord (m : MachineMemory) (input : List Nat) :
    (MachineMemory × List Nat) × Except InputError (Option Nat) :=
  let bufferAddress := m.getReservedAddress ReservedAddresses.wordBuffer
  let contentAddress := bufferAddress + 1
  match readWord input 255 with
  | (restInput, written, Except.error e) =>
    (({ m with rawMemory := m.rawMemory.writeBytes contentAddress written }, restInput),
      Except.error e)
  | (restInput, written, Except.ok _) =>
    let raw1 := m.rawMemory.writeBytes contentAddress written
    let raw2 := raw1.writeU8 bufferAddress (written.length % 256)
    (({ m with rawMemory := raw2 }, restInput),
      Except.ok (if written.length > 0 then some bufferAddress else none))

/-- `char::to_digit` as used by `from_str_radix`: ASCII digits and
letters (either case), then the radix bound. -/
def rustToDigit (radix b : Nat) : Option Nat :=
  let d : Option Nat :=
    if 48 ≤ b ∧ b ≤ 57 then some (b - 48)
    else if 97 ≤ b ∧ b ≤ 122 then some (b - 87)
    else if 65 ≤ b ∧ b ≤ 90 then some (b - 55)
    else none
  match d with
  | none => none
  | some v => if v < radix then some v else none

/-- The positive-sign accumulation loop of `u16::from_str_radix`:
`checked_mul` then `checked_add`, failing on a non-digit or on overflow
past `u16::MAX`. -/
def accumPos (radix : Nat) (acc : Nat) : List Nat → Option Nat
  | [] => some acc
  | c :: rest =>
    match rustToDigit radix c with
    | none => none
    | some d => if acc * radix + d ≤ 65535 then accumPos radix (acc * radix + d) rest else none

/-- The negative-sign accumulation loop of `u16::from_str_radix` for an
unsigned target: `checked_mul` then `checked_sub`, so only strings whose
digits are all zero can succeed. -/
def accumNeg (radix : Nat) (acc : Nat) : List Nat → Option Nat
  | [] => some acc
  | c :: rest =>
    match rustToDigit radix c with
    | none => none
    | some d =>
      if acc * radix ≤ 65535 ∧ d ≤ acc * radix then accumNeg radix (acc * radix - d) rest
      else none

/-- `u16::from_str_radix` over the byte representation of the string: an
optional leading sign, then a non-empty digit run.  The outer `none`
models the Rust panic on a radix outside `2..=36`.  (A byte outside the
ASCII digit/letter sets fails `to_digit` exactly as a multi-byte UTF-8
character or an invalid UTF-8 byte makes the Rust caller fail, so the
byte-level embedding agrees with the `str`-level original.) -/
def fromStrRadixU16 (radix : Nat) (s : List Nat) : Option (Option Nat) :=
  if 2 ≤ radix ∧ radix ≤ 36 then
    some (match s with
      | [] => none
      | c :: rest =>
        if c = 43 then (if rest.isEmpty then none else accumPos radix 0 rest)
        else if c = 45 then (if rest.isEmpty then none else accumNeg radix 0 rest)
        else accumPos radix 0 (c :: rest))
  else
    none

/-- `try_parse` of `literal.rs`: a leading `-` parses the remainder as an
absolute `u16`, range-checks it against `i16`, and wraps the negation to
the two's-complement `u16`; anything else parses directly.  The outer
`none` models the panics (`source[0]` on an empty slice, and the radix
assertion inside `from_str_radix`). -/
def tryParse (source : List Nat) (radix : Nat) : Option (Option Nat) :=
  match source with
  | [] => none
  | c :: rest =>
    if c = 45 then
      match fromStrRadixU16 radix rest with
      | none => none
      | some none => some none
      | some (some absolute) =>
        some (if absolute ≤ 32767 then some ((65536 - absolute) % 65536) else none)
    else
      fromStrRadixU16 radix (c :: rest)

/-- `parse_literal` of `literal.rs`: empty input gives no parse, a
`#`/`$`/`%` prefix selects radix 10/16/2, anything else uses the default
radix. -/
def parseLiteral (source : List Nat) (defaultRadix : Nat) : Option (Option Nat) :=
  match source with
  | [] => some none
  | c :: rest =>
    if c = 35 then tryParse rest 10
    else if c = 36 then tryParse rest 16
    else if c = 37 then tryParse rest 2
    else tryParse (c :: rest) defaultRadix

/-- First element of `MachineMemory::articles` (the
`ReadableArticlesIterator` seeded at `last_article_ptr`; a validation
failure is swallowed by `.ok()` into `None`). -/
def MachineMemory.articlesNext (m : MachineMemory) : Option Nat :=
  match m.lastArticlePtr with
  | none => none
  | some addr =>
    match ReadableArticle.new m.rawMemory addr m.getUsedDictSegment.1 m.getUsedDictSegment.2 with
    | Except.ok a => some a
    | Except.error _ => none

/-- `compile_u16_literal` of `builtin_words.rs`. -/
def compileU16Literal (m : MachineMemory) (value : Nat) :
    MachineMemory × Except MemoryAccessError Unit :=
  match m.dictWriteOpcode OpCode.literal16 with
  | (m2, Except.error e) => (m2, Except.error e)
  | (m2, Except.ok _) => m2.dictWriteU16 value

/-- `process_literal` of `builtin_words.rs`: push in interpreter state,
compile a `Literal16` in compiler state. -/
def processLiteral (machine : Machine) (value : Nat) :
    Machine × Except MachineError Unit :=
  match machine.memory.getState with
  | MachineState.interpreter =>
    match machine.memory.dataPushU16 value with
    | (mem2, Except.error e) =>
      ({ machine with memory := mem2 }, Except.error (MachineError.memoryAccessError e))
    | (mem2, Except.ok _) => ({ machine with memory := mem2 }, Except.ok ())
  | MachineState.compiler =>
    match compileU16Literal machine.memory value with
    | (mem2, Except.error e) =>
      ({ machine with memory := mem2 }, Except.error (MachineError.memoryAccessError e))
    | (mem2, Except.ok _) => ({ machine with memory := mem2 }, Except.ok ())

/-- The `b":"` arm of `process_builtin_word`: interpreter state only; a
still-open definition is `IllegalCompilerState`; then read the new name,
write the article header (previous pointer, name, `DefaultArticleStart`),
record the current word and switch to compiler state. -/
def processColonWord (machine : Machine) : Machine × Except MachineError Unit :=
  match machine.expectState MachineState.interpreter with
  | Except.error e => (machine, Except.error e)
  | Except.ok _ =>
    match machine.memory.getCurrentWord with
    | some _ => (machine, Except.error MachineError.illegalCompilerState)
    | none =>
      match machine.memory.readInputWord machine.input with
      | ((mem2, rest), Except.error e) =>
        ({ machine with memory := mem2, input := rest },
          Except.error (MachineError.inputError e))
      | ((mem2, rest), Except.ok none) =>
        ({ machine with memory := mem2, input := rest },
          Except.error MachineError.unexpectedInputEOF)
      | ((mem2, rest), Except.ok (some nameBufferAddress)) =>
        let machine2 := { machine with memory := mem2, input := rest }
        let articleStartAddress := mem2.getDictPtr
        let previousArticleAddress := mem2.lastArticlePtr.getD 65535
        match mem2.dictWriteU16 previousArticleAddress with
        | (mem3, Except.error e) =>
          ({ machine2 with memory := mem3 }, Except.error (MachineError.memoryAccessError e))
        | (mem3, Except.ok _) =>
          match mem3.dictWriteSizedString nameBufferAddress with
          | (mem4, Except.error e) =>
            ({ machine2 with memory := mem4 }, Except.error (MachineError.memoryAccessError e))
          | (mem4, Except.ok _) =>
            match mem4.dictWriteOpcode OpCode.defaultArticleStart with
            | (mem5, Except.error e) =>
              ({ machine2 with memory := mem5 }, Except.error (MachineError.memoryAccessError e))
            | (mem5, Except.ok _) =>
              let mem6 := mem5.setCurrentWord (some articleStartAddress)
              let mem7 := mem6.setState MachineState.compiler
              ({ machine2 with memory := mem7 }, Except.ok ())

/-- The `b";"` arm of `process_builtin_word`. -/
def processSemicolonWord (machine : Machine) : Machine × Except MachineError Unit :=
  match machine.expectState MachineState.compiler with
  | Except.error e => (machine, Except.error e)
  | Except.ok _ =>
    match machine.memory.getCurrentWord with
    | none => (machine, Except.error MachineError.illegalCompilerState)
    | some articleStartAddress =>
      match machine.memory.dictWriteOpcode OpCode.returnOp with
      | (mem2, Except.error e) =>
        ({ machine with memory := mem2 }, Except.error (MachineError.memoryAccessError e))
      | (mem2, Except.ok _) =>
        let mem3 := { mem2 with lastArticlePtr := some articleStartAddress }
        let mem4 := mem3.setCurrentWord none
        let mem5 := mem4.setState MachineState.interpreter
        ({ machine with memory := mem5 }, Except.ok ())

/-- The `b"RECURSE"` arm of `process_builtin_word`. -/
def processRecurseWord (machine : Machine) : Machine × Except MachineError Unit :=
  match machine.expectState MachineState.compiler with
  | Except.error e => (machine, Except.error e)
  | Except.ok _ =>
    match machine.memory.getCurrentWord with
    | none => (machine, Except.error MachineError.illegalCompilerState)
    | some articleHeaderAddress =>
      match ReadableArticle.new machine.memory.rawMemory articleHeaderAddress
          machine.memory.getUsedDictSegment.1 machine.memory.getUsedDictSegment.2 with
      | Except.error e => (machine, Except.error (MachineError.memoryAccessError e))
      | Except.ok _ =>
        let articleBodyAddress :=
          ReadableArticle.bodyAddress machine.memory.rawMemory articleHeaderAddress
        match machine.memory.dictWriteOpcode OpCode.call with
        | (mem2, Except.error e) =>
          ({ machine with memory := mem2 }, Except.error (MachineError.memoryAccessError e))
        | (mem2, Except.ok _) =>
          match mem2.dictWriteU16 articleBodyAddress with
          | (mem3, Except.error e) =>
            ({ machine with memory := mem3 }, Except.error (MachineError.memoryAccessError e))
          | (mem3, Except.ok _) => ({ machine with memory := mem3 }, Except.ok ())

/-- The `b"IMMEDIATE"` arm of `process_builtin_word`: interpreter state
only; the most recent article must start with `DefaultArticleStart`,
which is overwritten with `Noop`. -/
def processImmediateWord (machine : Machine) : Machine × Except MachineError Unit :=
  match machine.expectState MachineState.interpreter with
  | Except.error e => (machine, Except.error e)
  | Except.ok _ =>
    match machine.memory.articlesNext with
    | none => (machine, Except.error MachineError.noArticle)
    | some headerAddress =>
      let bodyAddress := ReadableArticle.bodyAddress machine.memory.rawMemory headerAddress
      if machine.memory.rawMemory.readU8 bodyAddress = OpCode.defaultArticleStart.intValue then
        ({ machine with memory :=
            { machine.memory with rawMemory :=
                machine.memory.rawMemory.writeU8 bodyAddress OpCode.noop.intValue } },
          Except.ok ())
      else
        (machine, Except.error MachineError.unexpectedArticleType)

/-- The `b"IF"` arm of `process_builtin_word`. -/
def processIfWord (machine : Machine) : Machine × Except MachineError Unit :=
  match machine.expectState MachineState.compiler with
  | Except.error e => (machine, Except.error e)
  | Except.ok _ =>
    match machine.memory.dictWriteOpcode OpCode.goToIfZ with
    | (mem2, Except.error e) =>
      ({ machine with memory := mem2 }, Except.error (MachineError.memoryAccessError e))
    | (mem2, Except.ok _) =>
      match mem2.createForwardReference with
      | (mem3, Except.error e) =>
        ({ machine with memory := mem3 }, Except.error (MachineError.memoryAccessError e))
      | (mem3, Except.ok forwardRef) =>
        match mem3.dataPushU16 forwardRef with
        | (mem4, Except.error e) =>
          ({ machine with memory := mem4 }, Except.error (MachineError.memoryAccessError e))
        | (mem4, Except.ok _) => ({ machine with memory := mem4 }, Except.ok ())

/-- The `(old_ref:Address => new_ref:Address)` effect of the `ELSE` arm. -/
def effectElse : StackEffect := StackEffect.mk 1 1

/-- The `b"ELSE"` arm of `process_builtin_word`: replace the pending
forward reference on the control-flow stack by a fresh one behind a
`GoTo`, resolving the old one. -/
def processElseWord (machine : Machine) : Machine × Except MachineError Unit :=
  match machine.expectState MachineState.compiler with
  | Except.error e => (machine, Except.error e)
  | Except.ok _ =>
    match effectValidate effectElse machine.memory with
    | Except.error e => (machine, Except.error (MachineError.memoryAccessError e))
    | Except.ok _ =>
      let sp := machine.memory.dataStackPtr
      let oldRef := machine.memory.rawMemory.readU16 sp
      match machine.memory.dictWriteOpcode OpCode.goTo with
      | (mem2, Except.error e) =>
        ({ machine with memory := mem2 }, Except.error (MachineError.memoryAccessError e))
      | (mem2, Except.ok _) =>
        match mem2.createForwardReference with
        | (mem3, Except.error e) =>
          ({ machine with memory := mem3 }, Except.error (MachineError.memoryAccessError e))
        | (mem3, Except.ok newRef) =>
          let mem4 :=
            { mem3 with rawMemory := mem3.rawMemory.writeU16 (effectElse.resultingPtr sp) newRef }
          match mem4.resolveForwardReference oldRef with
          | (mem5, Except.error e) =>
            ({ machine with memory := mem5 }, Except.error (MachineError.memoryAccessError e))
          | (mem5, Except.ok _) =>
            ({ machine with memory := effectCommit effectElse mem5 }, Except.ok ())

/-- The `b"THEN"` arm of `process_builtin_word`. -/
def processThenWord (machine : Machine) : Machine × Except MachineError Unit :=
  match machine.expectState MachineState.compiler with
  | Except.error e => (machine, Except.error e)
  | Except.ok _ =>
    match machine.memory.dataPopU16 with
    | (mem2, Except.error e) =>
      ({ machine with memory := mem2 }, Except.error (MachineError.memoryAccessError e))
    | (mem2, Except.ok reference) =>
      match mem2.resolveForwardReference reference with
      | (mem3, Except.error e) =>
        ({ machine with memory := mem3 }, Except.error (MachineError.memoryAccessError e))
      | (mem3, Except.ok _) => ({ machine with memory := mem3 }, Except.ok ())

/-- The `b"BEGIN"` arm of `process_builtin_word`. -/
def processBeginWord (machine : Machine) : Machine × Except MachineError Unit :=
  match machine.expectState MachineState.compiler with
  | Except.error e => (machine, Except.error e)
  | Except.ok _ =>
    match machine.memory.dataPushU16 machine.memory.getDictPtr with
    | (mem2, Except.error e) =>
      ({ machine with memory := mem2 }, Except.error (MachineError.memoryAccessError e))
    | (mem2, Except.ok _) => ({ machine with memory := mem2 }, Except.ok ())

/-- The `(old_dest:Address => orig:Address, new_dest:Address)` effect of
the `WHILE` arm. -/
def effectWhile : StackEffect := StackEffect.mk 1 2

/-- The `b"WHILE"` arm of `process_builtin_word`.  Note: unlike the
other control-flow arms, the source performs no `expect_state` check
here. -/
def processWhileWord (machine : Machine) : Machine × Except MachineError Unit :=
  match effectValidate effectWhile machine.memory with
  | Except.error e => (machine, Except.error (MachineError.memoryAccessError e))
  | Except.ok _ =>
    let sp := machine.memory.dataStackPtr
    let dest := machine.memory.rawMemory.readU16 sp
    let mem1 :=
      { machine.memory with rawMemory :=
          machine.memory.rawMemory.writeU16 (effectWhile.resultingPtr sp) dest }
    match mem1.dictWriteOpcode OpCode.goToIfZ with
    | (mem2, Except.error e) =>
      ({ machine with memory := mem2 }, Except.error (MachineError.memoryAccessError e))
    | (mem2, Except.ok _) =>
      match mem2.createForwardReference with
      | (mem3, Except.error e) =>
        ({ machine with memory := mem3 }, Except.error (MachineError.memoryAccessError e))
      | (mem3, Except.ok orig) =>
        let mem4 :=
          { mem3 with rawMemory :=
              mem3.rawMemory.writeU16 (effectWhile.resultingPtr sp + 2) orig }
        ({ machine with memory := effectCommit effectWhile mem4 }, Except.ok ())

/-- The `(orig:Address, dest:Address =>)` effect of the `REPEAT` arm. -/
def effectRepeat : StackEffect := StackEffect.mk 2 0

/-- The `b"REPEAT"` arm of `process_builtin_word`.  Note: like `WHILE`,
the source performs no `expect_state` check here. -/
def processRepeatWord (machine : Machine) : Machine × Except MachineError Unit :=
  match effectValidate effectRepeat machine.memory with
  | Except.error e => (machine, Except.error (MachineError.memoryAccessError e))
  | Except.ok _ =>
    let sp := machine.memory.dataStackPtr
    let dest := machine.memory.rawMemory.readU16 sp
    let orig := machine.memory.rawMemory.readU16 (sp + 2)
    match machine.memory.dictWriteOpcode OpCode.goTo with
    | (mem2, Except.error e) =>
      ({ machine with memory := mem2 }, Except.error (MachineError.memoryAccessError e))
    | (mem2, Except.ok _) =>
      match mem2.dictWriteU16 dest with
      | (mem3, Except.error e) =>
        ({ machine with memory := mem3 }, Except.error (MachineError.memoryAccessError e))
      | (mem3, Except.ok _) =>
        match mem3.resolveForwardReference orig with
        | (mem4, Except.error e) =>
          ({ machine with memory := mem4 }, Except.error (MachineError.memoryAccessError e))
        | (mem4, Except.ok _) =>
          ({ machine with memory := effectCommit effectRepeat mem4 }, Except.ok ())

/-- The `b"EXIT"` arm of `process_builtin_word`. -/
def processExitWord (machine : Machine) : Machine × Except MachineError Unit :=
  match machine.expectState MachineState.compiler with
  | Except.error e => (machine, Except.error e)
  | Except.ok _ =>
    match machine.memory.dictWriteOpcode OpCode.returnOp with
    | (mem2, Except.error e) =>
      ({ machine with memory := mem2 }, Except.error (MachineError.memoryAccessError e))
    | (mem2, Except.ok _) => ({ machine with memory := mem2 }, Except.ok ())

/-- The fallback chain of `process_builtin_word` for unknown names: the
default word-fallback handler fails with `IllegalWord(Some(name))`,
which the dispatcher catches and retries by parsing the name as a
numeric literal in the current `BASE`; a parse pushes or compiles the
value, otherwise the `IllegalWord` error surfaces.  The outer `none`
models the `parse_literal` panics. -/
def fallbackWord (machine : Machine) (nameAddress : Nat) :
    Option (Machine × Except MachineError Unit) :=
  let base :=
    machine.memory.rawMemory.readU16 (machine.memory.getReservedAddress ReservedAddresses.baseVar)
  match ReadableSizedString.new machine.memory.rawMemory nameAddress
      machine.memory.rawMemory.addressRangeStart machine.memory.rawMemory.addressRangeEnd with
  | Except.error e => some (machine, Except.error (MachineError.memoryAccessError e))
  | Except.ok _ =>
    match parseLiteral (ReadableSizedString.asBytes machine.memory.rawMemory nameAddress) base with
    | none => none
    | some none => some (machine, Except.error (MachineError.illegalWord (some nameAddress)))
    | some (some v) => some (processLiteral machine v)

/-- `process_builtin_word` of `builtin_words.rs`, restricted to the arms
this development reasons about (the colon-definition, `IMMEDIATE` and
control-flow words); the remaining table entries (trivial opcode words,
constants, strings, comments, mode switches) are outside the scope of
the theorems below, and unmatched names take the source's fallback
chain.  The name string is validated against the whole address range
first, exactly as in the source. -/
def processBuiltinWord (machine : Machine) (nameAddress : Nat) :
    Option (Machine × Except MachineError Unit) :=
  match ReadableSizedString.new machine.memory.rawMemory nameAddress
      machine.memory.rawMemory.addressRangeStart machine.memory.rawMemory.addressRangeEnd with
  | Except.error e => some (machine, Except.error (MachineError.memoryAccessError e))
  | Except.ok _ =>
    let bytes := ReadableSizedString.asBytes machine.memory.rawMemory nameAddress
    if bytes = [58] then some (processColonWord machine)
    else if bytes = [59] then some (processSemicolonWord machine)
    else if bytes = [82, 69, 67, 85, 82, 83, 69] then some (processRecurseWord machine)
    else if bytes = [73, 77, 77, 69, 68, 73, 65, 84, 69] then some (processImmediateWord machine)
    else if bytes = [73, 70] then some (processIfWord machine)
    else if bytes = [69, 76, 83, 69] then some (processElseWord machine)
    else if bytes = [84, 72, 69, 78] then some (processThenWord machine)
    else if bytes = [66, 69, 71, 73, 78] then some (processBeginWord machine)
    else if bytes = [87, 72, 73, 76, 69] then some (processWhileWord machine)
    else if bytes = [82, 69, 80, 69, 65, 84] then some (processRepeatWord machine)
    else if bytes = [69, 88, 73, 84] then some (processExitWord machine)
    else fallbackWord machine nameAddress

/-- One traversal step along the article chain, as `Option`
(`ReadableArticlesIterator::next` swallows both the terminating `None`
and a validation error). -/
def chainNext (mem : Mem) (segStart segEnd h : Nat) : Option Nat :=
  match ReadableArticle.previousArticle mem h segStart segEnd with
  | Except.ok (some h2) => some h2
  | Except.ok none => none
  | Except.error _ => none

/-- Iterated traversal along the article chain. -/
def chainIter (mem : Mem) (segStart segEnd : Nat) : Nat → Nat → Option Nat
  | 0, h => some h
  | n + 1, h =>
    match chainNext mem segStart segEnd h with
    | none => none
    | some h2 => chainIter mem segStart segEnd n h2

/-- The lookup loop of `MachineMemory::lookup_article` starting from a
validated article: first name match wins, else follow the previous
pointer.  The recursion is well-founded because `previous_article` only
returns headers at strictly lower addresses. -/
def MachineMemory.lookupFrom (mem : Mem) (segStart segEnd : Nat) (name : List Nat) (h : Nat) :
    Except MemoryAccessError (Option Nat) :=
  if ReadableSizedString.asBytes mem (ReadableArticle.nameAddress h) = name then
    Except.ok (some h)
  else
    match hp : ReadableArticle.previousArticle mem h segStart segEnd with
    | Except.ok (some h2) => MachineMemory.lookupFrom mem segStart segEnd name h2
    | Except.ok none => Except.ok none
    | Except.error e => Except.error e
termination_by h
decreasing_by
  unfold ReadableArticle.previousArticle at hp
  dsimp only at hp
  split at hp
  · exact absurd hp (by simp)
  · rename_i hlt
    unfold ReadableArticle.new at hp
    rcases hv : Mem.validateAccess mem (ReadableArticle.previousAddress mem h)
        (ReadableArticle.previousAddress mem h + 3) segStart segEnd with e | u
    · rw [hv] at hp
      exact absurd hp (by simp)
    · rw [hv] at hp
      rcases hc : ReadableSizedString.validateContent mem
          (ReadableArticle.nameAddress (ReadableArticle.previousAddress mem h))
          segStart segEnd with e | u
      · rw [hc] at hp
        exact absurd hp (by simp)
      · rw [hc] at hp
        simp only [Except.ok.injEq, Option.some.injEq] at hp
        omega

/-- `MachineMemory::lookup_article` (the looked-up value is the matching
header address). -/
def MachineMemory.lookupArticle (m : MachineMemory) (name : List Nat) :
    Except MemoryAccessError (Option Nat) :=
  match m.lastArticlePtr with
  | none => Except.ok none
  | some addr =>
    match ReadableArticle.new m.rawMemory addr m.getUsedDictSegment.1 m.getUsedDictSegment.2 with
    | Except.error e => Except.error e
    | Except.ok a =>
      MachineMemory.lookupFrom m.rawMemory m.getUsedDictSegment.1 m.getUsedDictSegment.2 name a

/-- A dictionary write request (one of the `dict_write_*` operations). -/
inductive DictWrite where
  | u8Write (value : Nat)
  | u16Write (value : Nat)
  | u32Write (value : Nat)
  | opcodeWrite (op : OpCode)
  | sizedStringWrite (address : Nat)

/-- Dispatch one dictionary write request. -/
def MachineMemory.dictWriteRun (m : MachineMemory) :
    DictWrite → MachineMemory × Except MemoryAccessError Unit
  | DictWrite.u8Write v => m.dictWriteU8 v
  | DictWrite.u16Write v => m.dictWriteU16 v
  | DictWrite.u32Write v => m.dictWriteU32 v
  | DictWrite.opcodeWrite op => m.dictWriteOpcode op
  | DictWrite.sizedStringWrite a => m.dictWriteSizedString a

/-- The number of dictionary bytes a write occupies: 1 per `u8`/opcode,
2 per `u16`, 4 per `u32`, 1 plus the stored length per sized string. -/
def dictWriteSize (m : MachineMemory) : DictWrite → Nat
  | DictWrite.u8Write _ => 1
  | DictWrite.u16Write _ => 2
  | DictWrite.u32Write _ => 4
  | DictWrite.opcodeWrite _ => 1
  | DictWrite.sizedStringWrite a => 1 + m.rawMemory.readU8 a

/-- Run a list of dictionary writes, stopping at the first error. -/
def MachineMemory.dictWriteSeq (m : MachineMemory) :
    List DictWrite → MachineMemory × Except MemoryAccessError Unit
  | [] => (m, Except.ok ())
  | w :: rest =>
    match m.dictWriteRun w with
    | (m2, Except.error e) => (m2, Except.error e)
    | (m2, Except.ok _) => m2.dictWriteSeq rest

/-- Total byte count of a write sequence, sized against the intermediate
states (a sized-string length byte is read from the memory state at the
moment of that write). -/
def dictWriteSeqSize (m : MachineMemory) : List DictWrite → Nat
  | [] => 0
  | w :: rest => dictWriteSize m w + dictWriteSeqSize (m.dictWriteRun w).1 rest

/-- Bytes of the arena are 8-bit values; this is the well-formedness the
`u8`-array representation of `mem.rs` gives for free. -/
def Mem.byteBounded (m : Mem) : Prop := ∀ x, m.readU8 x < 256

lemma readU8_writeU8 (m : Mem) (a v x : Nat) :
    (m.writeU8 a v).readU8 x = if x = a then v % 256 else m.readU8 x := rfl

lemma readU16_writeU16_same (m : Mem) (a v : Nat) :
    (m.writeU16 a v).readU16 a = v % 65536 := by
  unfold Mem.readU16 Mem.writeU16
  simp only [readU8_writeU8]
  have h1 : ¬(a = a + 1) := by omega
  simp [h1]
  omega

lemma readU8_writeU16_ne (m : Mem) (a v x : Nat) (h1 : x ≠ a) (h2 : x ≠ a + 1) :
    (m.writeU16 a v).readU8 x = m.readU8 x := by
  unfold Mem.writeU16
  rw [readU8_writeU8, readU8_writeU8, if_neg h2, if_neg h1]

lemma readU16_writeU8_ne (m : Mem) (a v x : Nat) (h1 : x ≠ a) (h2 : x + 1 ≠ a) :
    (m.writeU8 a v).readU16 x = m.readU16 x := by
  unfold Mem.readU16
  rw [readU8_writeU8, readU8_writeU8, if_neg h1, if_neg h2]

lemma readU16_writeU16_ne (m : Mem) (a v x : Nat) (h1 : x ≠ a) (h2 : x ≠ a + 1)
    (h3 : x + 1 ≠ a) (h4 : x + 1 ≠ a + 1) :
    (m.writeU16 a v).readU16 x = m.readU16 x := by
  unfold Mem.readU16
  rw [readU8_writeU16_ne m a v x h1 h2, readU8_writeU16_ne m a v (x + 1) h3 h4]

lemma getDictPtr_setDictPtr (m : MachineMemory) (a : Nat) :
    (m.setDictPtr a).getDictPtr = a % 65536 := by
  unfold MachineMemory.setDictPtr MachineMemory.getDictPtr
  exact readU16_writeU16_same m.rawMemory _ a

/-- C2.  The stack-effect harness is transactional: under the no-wrap
conditions satisfied by every validated effect, the touched byte range
is `[min(sp, sp_after), sp + 2*in_words - 1]`; construction validates it
against the current data-stack segment before the body runs and returns
the machine memory unchanged with a `MemoryAccessError` when that
validation fails; and `commit` sets `data_stack_ptr` to exactly
`sp + 2*in_words - 2*out_words`. -/
theorem stackEffectTransactional (e : StackEffect) (m : MachineMemory)
    (hn : 0 < e.inWords + e.outWords)
    (hi : m.dataStackPtr + 2 * e.inWords ≤ 65535)
    (ho : 2 * e.outWords ≤ m.dataStackPtr + 2 * e.inWords) :
    e.resultingPtr m.dataStackPtr = m.dataStackPtr + 2 * e.inWords - 2 * e.outWords
      ∧ e.minPtr m.dataStackPtr = min m.dataStackPtr (e.resultingPtr m.dataStackPtr)
      ∧ e.maxPtr m.dataStackPtr = m.dataStackPtr + 2 * e.inWords - 1
      ∧ (∀ (body : MachineMemory → MachineMemory) (err : MemoryAccessError),
          effectValidate e m = Except.error err → effectApply e m body = (m, Except.error err))
      ∧ (∀ body : MachineMemory → MachineMemory,
          effectValidate e m = Except.ok () →
            effectApply e m body = (effectCommit e (body m), Except.ok ()))
      ∧ ∀ mm : MachineMemory, (effectCommit e mm).dataStackPtr = e.resultingPtr mm.dataStackPtr := by
  have hmax : e.maxPtr m.dataStackPtr = m.dataStackPtr + 2 * e.inWords - 1 := by
    unfold StackEffect.maxPtr wadd16 wsub16
    omega
  have hres : e.resultingPtr m.dataStackPtr =
      m.dataStackPtr + 2 * e.inWords - 2 * e.outWords := by
    unfold StackEffect.resultingPtr wadd16 wsub16
    rw [hmax]
    omega
  refine ⟨hres, ?_, hmax, ?_, ?_, ?_⟩
  · unfold StackEffect.minPtr
    rw [hres]
    split
    · omega
    · omega
  · intro body err hv
    unfold effectApply
    rw [hv]
  · intro body hv
    unfold effectApply
    rw [hv]
  · intro mm
    rfl

/-- Witness for C2 at the `(a:u16, b:u16 => c:u16)` effect on the
initial machine memory. -/
theorem stackEffectTransactionalWitness :
    effectBinOp.resultingPtr MachineMemory.initial.dataStackPtr =
      MachineMemory.initial.dataStackPtr + 2 * effectBinOp.inWords - 2 * effectBinOp.outWords := by
  exact (stackEffectTransactional effectBinOp MachineMemory.initial (by decide) (by decide)
    (by decide)).1

/-- C4.  Every successful execution of a `Load8`/`Load16`/`Load32`/
`Store8`/`Store16`/`Store32` opcode at instruction address `a` returns
exactly `a + 1` as the next instruction address, regardless of the
address value taken from the data stack. -/
theorem loadStoreNextIp :
    (∀ (machine : Machine) (a n : Nat),
        (OpCode.execLoad8 machine a).2 = Except.ok n → n = a + 1)
      ∧ (∀ (machine : Machine) (a n : Nat),
          (OpCode.execLoad16 machine a).2 = Except.ok n → n = a + 1)
      ∧ (∀ (machine : Machine) (a n : Nat),
          (OpCode.execLoad32 machine a).2 = Except.ok n → n = a + 1)
      ∧ (∀ (machine : Machine) (a n : Nat),
          (OpCode.execStore8 machine a).2 = Except.ok n → n = a + 1)
      ∧ (∀ (machine : Machine) (a n : Nat),
          (OpCode.execStore16 machine a).2 = Except.ok n → n = a + 1)
      ∧ ∀ (machine : Machine) (a n : Nat),
          (OpCode.execStore32 machine a).2 = Except.ok n → n = a + 1 := by
  refine ⟨?_, ?_, ?_, ?_, ?_, ?_⟩ <;>
    · intro machine a n h
      first
        | unfold OpCode.execLoad8 at h
        | unfold OpCode.execLoad16 at h
        | unfold OpCode.execLoad32 at h
        | unfold OpCode.execStore8 at h
        | unfold OpCode.execStore16 at h
        | unfold OpCode.execStore32 at h
      split at h
      · simp at h
      · dsimp only at h
        split at h
        · simp at h
        · simp at h
          omega

/-- Witness for C4: a concrete successful `Load8` at instruction
address 7 returns 8. -/
theorem loadStoreNextIpWitness :
    (OpCode.execLoad8 (Machine.mk (MachineMemory.initial.dataPushU16 100).1 [] []) 7).2 =
        Except.ok 8
      ∧ 8 = 7 + 1 := by
  have h : (OpCode.execLoad8 (Machine.mk (MachineMemory.initial.dataPushU16 100).1 [] []) 7).2 =
      Except.ok 8 := by rfl
  exact ⟨h, loadStoreNextIp.1 (Machine.mk (MachineMemory.initial.dataPushU16 100).1 [] []) 7 8 h⟩

/-- C5.  `Div16` is unguarded: with a validated stack effect and a zero
divisor on top of the data stack the embedded step function has no
defined result (the host panics, no `MachineError` is returned), and a
nonzero divisor is exactly the hypothesis under which it is defined;
likewise `PnoPutDigit` with a zero `BASE`. -/
theorem div16PnoPutDigitUnguarded :
    (∀ (machine : Machine) (a : Nat),
        effectValidate effectBinOp machine.memory = Except.ok () →
        machine.memory.rawMemory.readU16 machine.memory.dataStackPtr = 0 →
        OpCode.execDiv16 machine a = none)
      ∧ (∀ (machine : Machine) (a : Nat),
          machine.memory.rawMemory.readU16 machine.memory.dataStackPtr ≠ 0 →
          (OpCode.execDiv16 machine a).isSome = true)
      ∧ (∀ (machine : Machine) (a : Nat),
          effectValidate effectPnoPutDigit machine.memory = Except.ok () →
          machine.memory.getBase = 0 →
          OpCode.execPnoPutDigit machine a = none)
      ∧ ∀ (machine : Machine) (a : Nat),
          machine.memory.getBase ≠ 0 →
          (OpCode.execPnoPutDigit machine a).isSome = true := by
  refine ⟨?_, ?_, ?_, ?_⟩
  · intro machine a hv hz
    unfold OpCode.execDiv16
    rw [hv]
    dsimp only
    rw [if_pos hz]
  · intro machine a hnz
    unfold OpCode.execDiv16
    split
    · rfl
    · dsimp only
      rw [if_neg hnz]
      rfl
  · intro machine a hv hz
    unfold OpCode.execPnoPutDigit
    rw [hv]
    dsimp only
    rw [if_pos hz]
  · intro machine a hnz
    unfold OpCode.execPnoPutDigit
    split
    · rfl
    · dsimp only
      rw [if_neg hnz]
      split <;> rfl

/-- Witness for C5: dividing by a zero divisor on the initial machine
yields the undefined (panicking) result; with divisor 2 the result is
defined; the same for `PnoPutDigit` with `BASE` 0 and the default
`BASE` 10. -/
theorem div16PnoPutDigitUnguardedWitness :
    OpCode.execDiv16
        (Machine.mk ((MachineMemory.initial.dataPushU16 10).1.dataPushU16 0).1 [] []) 3 = none
      ∧ (OpCode.execDiv16
          (Machine.mk ((MachineMemory.initial.dataPushU16 10).1.dataPushU16 2).1 [] []) 3).isSome
            = true
      ∧ OpCode.execPnoPutDigit
          (Machine.mk
            { (MachineMemory.initial.dataPushU32 7).1 with rawMemory :=
                (MachineMemory.initial.dataPushU32 7).1.rawMemory.writeU16 64778 0 } [] []) 3
          = none
      ∧ (OpCode.execPnoPutDigit
          (Machine.mk (MachineMemory.initial.dataPushU32 7).1 [] []) 3).isSome = true := by
  refine ⟨?_, ?_, ?_, ?_⟩
  · exact div16PnoPutDigitUnguarded.1 _ 3 (by rfl) (by rfl)
  · exact div16PnoPutDigitUnguarded.2.1 _ 3 (by decide)
  · exact div16PnoPutDigitUnguarded.2.2.1 _ 3 (by rfl) (by rfl)
  · exact div16PnoPutDigitUnguarded.2.2.2 _ 3 (by decide)

/-- C1 (amended).  Every memory/dictionary/stack primitive is
transactional: each disjunct says the operation either succeeded or left
the machine memory (arena bytes and all pointers) exactly unchanged —
i.e. on every error path there is no state change.  (The opcode
dispatcher is **not** covered: see the counterexample for `GoToIfZ` and
`DefaultArticleStart`.) -/
theorem primitivesTransactional :
    (∀ (m : MachineMemory) (v : Nat),
        (m.dataPushU16 v).1 = m ∨ (m.dataPushU16 v).2 = Except.ok ())
      ∧ (∀ m : MachineMemory, m.dataPopU16.1 = m ∨ ∃ v, m.dataPopU16.2 = Except.ok v)
      ∧ (∀ (m : MachineMemory) (v : Nat),
          (m.dataPushU32 v).1 = m ∨ (m.dataPushU32 v).2 = Except.ok ())
      ∧ (∀ m : MachineMemory, m.dataPopU32.1 = m ∨ ∃ v, m.dataPopU32.2 = Except.ok v)
      ∧ (∀ (m : MachineMemory) (v : Nat),
          (m.callPushU16 v).1 = m ∨ (m.callPushU16 v).2 = Except.ok ())
      ∧ (∀ m : MachineMemory, m.callPopU16.1 = m ∨ ∃ v, m.callPopU16.2 = Except.ok v)
      ∧ (∀ (m : MachineMemory) (v : Nat),
          (m.callPushU32 v).1 = m ∨ (m.callPushU32 v).2 = Except.ok ())
      ∧ (∀ m : MachineMemory, m.callPopU32.1 = m ∨ ∃ v, m.callPopU32.2 = Except.ok v)
      ∧ (∀ (m : MachineMemory) (v : Nat),
          (m.dictWriteU8 v).1 = m ∨ (m.dictWriteU8 v).2 = Except.ok ())
      ∧ (∀ (m : MachineMemory) (v : Nat),
          (m.dictWriteU16 v).1 = m ∨ (m.dictWriteU16 v).2 = Except.ok ())
      ∧ (∀ (m : MachineMemory) (v : Nat),
          (m.dictWriteU32 v).1 = m ∨ (m.dictWriteU32 v).2 = Except.ok ())
      ∧ (∀ (m : MachineMemory) (a : Nat),
          (m.dictWriteSizedString a).1 = m ∨ (m.dictWriteSizedString a).2 = Except.ok ())
      ∧ (∀ m : MachineMemory,
          m.createForwardReference.1 = m ∨ ∃ v, m.createForwardReference.2 = Except.ok v)
      ∧ (∀ (m : MachineMemory) (a : Nat),
          (m.resolveForwardReference a).1 = m ∨ (m.resolveForwardReference a).2 = Except.ok ())
      ∧ ∀ (m : MachineMemory) (ch : Nat),
          (m.pnoPut ch).1 = m ∨ (m.pnoPut ch).2 = Except.ok () := by
  have hu16 : ∀ (m : MachineMemory) (v : Nat),
      (m.dictWriteU16 v).1 = m ∨ (m.dictWriteU16 v).2 = Except.ok () := by
    intro m v
    unfold MachineMemory.dictWriteU16
    dsimp only
    split
    · exact Or.inl rfl
    · exact Or.inr rfl
  refine ⟨?_, ?_, ?_, ?_, ?_, ?_, ?_, ?_, ?_, hu16, ?_, ?_, ?_, ?_, ?_⟩
  · intro m v
    unfold MachineMemory.dataPushU16 MachineMemory.pushU16
    dsimp only
    split
    · exact Or.inl rfl
    · exact Or.inr rfl
  · intro m
    unfold MachineMemory.dataPopU16 MachineMemory.popU16
    dsimp only
    split
    · exact Or.inl rfl
    · rename_i v heq
      exact Or.inr ⟨v, rfl⟩
  · intro m v
    unfold MachineMemory.dataPushU32 MachineMemory.pushU32
    dsimp only
    split
    · exact Or.inl rfl
    · exact Or.inr rfl
  · intro m
    unfold MachineMemory.dataPopU32 MachineMemory.popU32
    dsimp only
    split
    · exact Or.inl rfl
    · rename_i v heq
      exact Or.inr ⟨v, rfl⟩
  · intro m v
    unfold MachineMemory.callPushU16 MachineMemory.pushU16
    dsimp only
    split
    · exact Or.inl rfl
    · exact Or.inr rfl
  · intro m
    unfold MachineMemory.callPopU16 MachineMemory.popU16
    dsimp only
    split
    · exact Or.inl rfl
    · rename_i v heq
      exact Or.inr ⟨v, rfl⟩
  · intro m v
    unfold MachineMemory.callPushU32 MachineMemory.pushU32
    dsimp only
    split
    · exact Or.inl rfl
    · exact Or.inr rfl
  · intro m
    unfold MachineMemory.callPopU32 MachineMemory.popU32
    dsimp only
    split
    · exact Or.inl rfl
    · rename_i v heq
      exact Or.inr ⟨v, rfl⟩
  · intro m v
    unfold MachineMemory.dictWriteU8
    dsimp only
    split
    · exact Or.inl rfl
    · exact Or.inr rfl
  · intro m v
    unfold MachineMemory.dictWriteU32
    dsimp only
    split
    · exact Or.inl rfl
    · exact Or.inr rfl
  · intro m a
    unfold MachineMemory.dictWriteSizedString
    dsimp only
    split
    · exact Or.inl rfl
    · split
      · exact Or.inl rfl
      · exact Or.inr rfl
  · intro m
    unfold MachineMemory.createForwardReference
    dsimp only
    split
    · rename_i m2 e heq
      rcases hu16 m 57005 with hl | hr
      · rw [heq] at hl
        exact Or.inl hl
      · rw [heq] at hr
        exact absurd hr (by simp)
    · rename_i m2 u heq
      exact Or.inr ⟨m.getDictPtr, rfl⟩
  · intro m a
    unfold MachineMemory.resolveForwardReference
    split
    · exact Or.inl rfl
    · exact Or.inr rfl
  · intro m ch
    unfold MachineMemory.pnoPut
    dsimp only
    split
    · exact Or.inl rfl
    · exact Or.inr rfl

/-- Counterexample for C1 as stated: opcode execution is not uniformly
transactional.  `GoToIfZ` on the initial machine with a zero flag pops
the flag (the data stack pointer moves from 64510 to 64512) and only
then fails validating its branch-target operand; `DefaultArticleStart`
in compiler state writes the three `Call` bytes (`HERE` moves from 0 to
3) and then fails with `Exited` on the empty call stack. -/
theorem errorPathMutatesCounterexample :
    (OpCode.execGoToIfZ (Machine.mk (MachineMemory.initial.dataPushU16 0).1 [] []) 100).2 =
        Except.error (MachineError.memoryAccessError (MemoryAccessError.mk 101 102 0 0))
      ∧ (OpCode.execGoToIfZ (Machine.mk (MachineMemory.initial.dataPushU16 0).1 [] [])
          100).1.memory.dataStackPtr = 64512
      ∧ (Machine.mk (MachineMemory.initial.dataPushU16 0).1 [] []).memory.dataStackPtr = 64510
      ∧ (OpCode.execDefaultArticleStart
          (Machine.mk (MachineMemory.initial.setState MachineState.compiler) [] []) 50).2 =
            Except.error MachineError.exited
      ∧ (OpCode.execDefaultArticleStart
          (Machine.mk (MachineMemory.initial.setState MachineState.compiler) [] [])
            50).1.memory.getDictPtr = 3
      ∧ (MachineMemory.initial.setState MachineState.compiler).getDictPtr = 0 :=
  ⟨rfl, rfl, rfl, rfl, rfl, rfl⟩

lemma fromStrRadixU16_isSome (radix : Nat) (s : List Nat) (h2 : 2 ≤ radix)
    (h36 : radix ≤ 36) : ∃ r, fromStrRadixU16 radix s = some r := by
  unfold fromStrRadixU16
  rw [if_pos ⟨h2, h36⟩]
  exact ⟨_, rfl⟩

/-- C9.  For a byte string whose first character after the optional
`#`/`$`/`%` radix prefix is `-`, `parse_literal` does not panic, and it
returns `Some v` exactly when the remaining characters parse as a `u16`
in the selected radix (Rust `u16::from_str_radix` semantics) with a
value representable as a non-negative `i16` (at most 32767), and then
`v` is the two's-complement `u16` representation of the negation;
overflow or an illegal character yields no parse. -/
theorem parseLiteralNegative (defaultRadix radix : Nat) (src rest : List Nat)
    (hshape : (src = 45 :: rest ∧ radix = defaultRadix)
        ∨ (src = 35 :: 45 :: rest ∧ radix = 10)
        ∨ (src = 36 :: 45 :: rest ∧ radix = 16)
        ∨ (src = 37 :: 45 :: rest ∧ radix = 2))
    (h2 : 2 ≤ radix) (h36 : radix ≤ 36) :
    parseLiteral src defaultRadix ≠ none
      ∧ ∀ v, parseLiteral src defaultRadix = some (some v) ↔
          ∃ n, fromStrRadixU16 radix rest = some (some n) ∧ n ≤ 32767
            ∧ v = (65536 - n) % 65536 := by
  have hmain : parseLiteral src defaultRadix = tryParse (45 :: rest) radix := by
    rcases hshape with ⟨hs, hr⟩ | ⟨hs, hr⟩ | ⟨hs, hr⟩ | ⟨hs, hr⟩ <;>
      · subst hs
        subst hr
        simp [parseLiteral]
  rw [hmain]
  unfold tryParse
  dsimp only
  rw [if_pos rfl]
  obtain ⟨r, hfs⟩ := fromStrRadixU16_isSome radix rest h2 h36
  rw [hfs]
  rcases r with _ | absolute
  · simp
  · dsimp only
    by_cases habs : absolute ≤ 32767
    · rw [if_pos habs]
      constructor
      · simp
      · intro v
        constructor
        · intro hv
          simp only [Option.some.injEq] at hv
          exact ⟨absolute, rfl, habs, hv.symm⟩
        · rintro ⟨n, hn, hle, hv⟩
          simp only [Option.some.injEq] at hn
          subst hn
          subst hv
          rfl
    · rw [if_neg habs]
      constructor
      · simp
      · intro v
        constructor
        · intro hv
          simp at hv
        · rintro ⟨n, hn, hle, hv⟩
          simp only [Option.some.injEq] at hn
          subst hn
          exact absurd hle habs

/-- Witness for C9: `-5` in radix 10 parses without panic (indeed to
two's-complement 65531). -/
theorem parseLiteralNegativeWitness : parseLiteral [45, 53] 10 ≠ none :=
  (parseLiteralNegative 10 10 [45, 53] [53] (Or.inl ⟨rfl, rfl⟩) (by decide) (by decide)).1

lemma readableArticle_new_eq (memory : Mem) (h segS segE v : Nat)
    (hv : ReadableArticle.new memory h segS segE = Except.ok v) : v = h := by
  unfold ReadableArticle.new at hv
  split at hv
  · exact absurd hv (by simp)
  · split at hv
    · exact absurd hv (by simp)
    · simp only [Except.ok.injEq] at hv
      exact hv.symm

lemma previousArticle_lt (mem : Mem) (h segS segE h2 : Nat)
    (hp : ReadableArticle.previousArticle mem h segS segE = Except.ok (some h2)) : h2 < h := by
  unfold ReadableArticle.previousArticle at hp
  dsimp only at hp
  split at hp
  · exact absurd hp (by simp)
  · rename_i hge
    split at hp
    · exact absurd hp (by simp)
    · rename_i a heq
      have ha := readableArticle_new_eq _ _ _ _ _ heq
      simp only [Except.ok.injEq, Option.some.injEq] at hp
      omega

lemma chainIter_bound (mem : Mem) (segS segE : Nat) :
    ∀ (n h h2 : Nat), chainIter mem segS segE n h = some h2 → h2 + n ≤ h := by
  intro n
  induction n with
  | zero =>
    intro h h2 hc
    unfold chainIter at hc
    simp only [Option.some.injEq] at hc
    omega
  | succ k ih =>
    intro h h2 hc
    unfold chainIter at hc
    rcases hn : chainNext mem segS segE h with _ | h3
    · rw [hn] at hc
      exact absurd hc (by simp)
    · rw [hn] at hc
      have hlt : h3 < h := by
        unfold chainNext at hn
        split at hn
        · rename_i x heq
          simp only [Option.some.injEq] at hn
          rw [← hn]
          exact previousArticle_lt mem h segS segE x heq
        · exact absurd hn (by simp)
        · exact absurd hn (by simp)
      have hb := ih h3 h2 hc
      omega

/-- C8.  Article traversal terminates: `previous_article` yields `None`
whenever the stored previous pointer is at or above the current header
address, any article it does yield lives at a strictly lower header
address, and consequently iterating the chain step from header `h`
reaches `None` within `h + 1` steps.  (The well-founded definition of
`MachineMemory.lookupFrom` above is the same argument applied to
`lookup_article`.) -/
theorem articleChainTerminates :
    (∀ (mem : Mem) (h segS segE h2 : Nat),
        ReadableArticle.previousArticle mem h segS segE = Except.ok (some h2) → h2 < h)
      ∧ (∀ (mem : Mem) (h segS segE : Nat),
          ReadableArticle.previousAddress mem h ≥ h →
            ReadableArticle.previousArticle mem h segS segE = Except.ok none)
      ∧ ∀ (mem : Mem) (segS segE h : Nat), chainIter mem segS segE (h + 1) h = none := by
  refine ⟨previousArticle_lt, ?_, ?_⟩
  · intro mem h segS segE hge
    unfold ReadableArticle.previousArticle
    dsimp only
    rw [if_pos hge]
  · intro mem segS segE h
    rcases hc : chainIter mem segS segE (h + 1) h with _ | h2
    · rfl
    · have hb := chainIter_bound mem segS segE (h + 1) h h2 hc
      omega

/-- Witness for C8 on a two-article dictionary: the article at header 10
links to the validated article at header 0, which is strictly lower, and
the first article (previous pointer `0xFFFF`) ends the chain. -/
theorem articleChainTerminatesWitness :
    ReadableArticle.previousArticle
        ((((((Mem.zero.writeU8 0 255).writeU8 1 255).writeU8 2 1).writeU8 3 97).writeU8
          12 1).writeU8 13 98) 10 0 15 = Except.ok (some 0)
      ∧ 0 < 10
      ∧ ReadableArticle.previousArticle
          ((((((Mem.zero.writeU8 0 255).writeU8 1 255).writeU8 2 1).writeU8 3 97).writeU8
            12 1).writeU8 13 98) 0 0 15 = Except.ok none := by
  have hp : ReadableArticle.previousArticle
      ((((((Mem.zero.writeU8 0 255).writeU8 1 255).writeU8 2 1).writeU8 3 97).writeU8
        12 1).writeU8 13 98) 10 0 15 = Except.ok (some 0) := by rfl
  exact ⟨hp, articleChainTerminates.1 _ 10 0 15 0 hp,
    articleChainTerminates.2.1 _ 0 0 15 (Nat.zero_le _)⟩

lemma readU16_lt (m : Mem) (hb : m.byteBounded) (x : Nat) : m.readU16 x < 65536 := by
  have h0 := hb x
  have h1 := hb (x + 1)
  unfold Mem.readU16
  omega

lemma validateAccess_ok (m : Mem) (a b s e : Nat) (u : Unit)
    (h : m.validateAccess a b s e = Except.ok u) : a ≤ b ∧ s ≤ a ∧ b ≤ e := by
  unfold Mem.validateAccess at h
  split at h
  · exact absurd h (by simp)
  · rename_i hc
    push_neg at hc
    omega

lemma byteBounded_writeU8 (m : Mem) (a v : Nat) (hb : m.byteBounded) :
    (m.writeU8 a v).byteBounded := by
  intro x
  rw [readU8_writeU8]
  split
  · omega
  · exact hb x

lemma byteBounded_writeU16 (m : Mem) (a v : Nat) (hb : m.byteBounded) :
    (m.writeU16 a v).byteBounded :=
  byteBounded_writeU8 _ _ _ (byteBounded_writeU8 _ _ _ hb)

lemma byteBounded_writeU32 (m : Mem) (a v : Nat) (hb : m.byteBounded) :
    (m.writeU32 a v).byteBounded :=
  byteBounded_writeU8 _ _ _ (byteBounded_writeU8 _ _ _
    (byteBounded_writeU8 _ _ _ (byteBounded_writeU8 _ _ _ hb)))

lemma byteBounded_dictCopyLoop (dstBase srcBase : Nat) (count : Nat) (mem : Mem)
    (hb : mem.byteBounded) : (dictCopyLoop dstBase srcBase count mem).byteBounded := by
  induction count with
  | zero => exact hb
  | succ k ih => exact byteBounded_writeU8 _ _ _ ih

lemma dictWriteRun_dataStackPtr (m : MachineMemory) (w : DictWrite) :
    (m.dictWriteRun w).1.dataStackPtr = m.dataStackPtr := by
  cases w with
  | u8Write v =>
    unfold MachineMemory.dictWriteRun MachineMemory.dictWriteU8
    dsimp only
    split
    · rfl
    · rfl
  | u16Write v =>
    unfold MachineMemory.dictWriteRun MachineMemory.dictWriteU16
    dsimp only
    split
    · rfl
    · rfl
  | u32Write v =>
    unfold MachineMemory.dictWriteRun MachineMemory.dictWriteU32
    dsimp only
    split
    · rfl
    · rfl
  | opcodeWrite op =>
    unfold MachineMemory.dictWriteRun MachineMemory.dictWriteOpcode MachineMemory.dictWriteU8
    dsimp only
    split
    · rfl
    · rfl
  | sizedStringWrite a =>
    unfold MachineMemory.dictWriteRun MachineMemory.dictWriteSizedString
    dsimp only
    split
    · rfl
    · split
      · rfl
      · rfl

lemma dictWriteRun_byteBounded (m : MachineMemory) (w : DictWrite)
    (hb : m.rawMemory.byteBounded) : (m.dictWriteRun w).1.rawMemory.byteBounded := by
  cases w with
  | u8Write v =>
    unfold MachineMemory.dictWriteRun MachineMemory.dictWriteU8
    dsimp only
    split
    · exact hb
    · exact byteBounded_writeU16 _ _ _ (byteBounded_writeU8 _ _ _ hb)
  | u16Write v =>
    unfold MachineMemory.dictWriteRun MachineMemory.dictWriteU16
    dsimp only
    split
    · exact hb
    · exact byteBounded_writeU16 _ _ _ (byteBounded_writeU16 _ _ _ hb)
  | u32Write v =>
    unfold MachineMemory.dictWriteRun MachineMemory.dictWriteU32
    dsimp only
    split
    · exact hb
    · exact byteBounded_writeU16 _ _ _ (byteBounded_writeU32 _ _ _ hb)
  | opcodeWrite op =>
    unfold MachineMemory.dictWriteRun MachineMemory.dictWriteOpcode MachineMemory.dictWriteU8
    dsimp only
    split
    · exact hb
    · exact byteBounded_writeU16 _ _ _ (byteBounded_writeU8 _ _ _ hb)
  | sizedStringWrite a =>
    unfold MachineMemory.dictWriteRun MachineMemory.dictWriteSizedString
    dsimp only
    split
    · exact hb
    · split
      · exact hb
      · exact byteBounded_writeU16 _ _ _
          (byteBounded_dictCopyLoop _ _ _ _ (byteBounded_writeU8 _ _ _ hb))

lemma dictWriteRun_here (m : MachineMemory) (w : DictWrite)
    (hb : m.rawMemory.byteBounded) (hsp : m.dataStackPtr < 65536)
    (hok : (m.dictWriteRun w).2 = Except.ok ()) :
    (m.dictWriteRun w).1.getDictPtr = m.getDictPtr + dictWriteSize m w := by
  have hd : m.getDictPtr < 65536 := readU16_lt _ hb _
  cases w with
  | u8Write v =>
    unfold MachineMemory.dictWriteRun MachineMemory.dictWriteU8 at hok ⊢
    unfold dictWriteSize
    dsimp only at hok ⊢
    split at hok
    · exact absurd hok (by simp)
    · rename_i u heq
      dsimp only
      rw [getDictPtr_setDictPtr]
      have hv := validateAccess_ok _ _ _ _ _ _ heq
      unfold MachineMemory.getFreeDataSegment at hv
      dsimp only at hv
      unfold wadd16
      omega
  | u16Write v =>
    unfold MachineMemory.dictWriteRun MachineMemory.dictWriteU16 at hok ⊢
    unfold dictWriteSize
    dsimp only at hok ⊢
    split at hok
    · exact absurd hok (by simp)
    · rename_i u heq
      dsimp only
      rw [getDictPtr_setDictPtr]
      have hv := validateAccess_ok _ _ _ _ _ _ heq
      unfold MachineMemory.getFreeDataSegment at hv
      dsimp only at hv
      unfold wadd16 at hv ⊢
      omega
  | u32Write v =>
    unfold MachineMemory.dictWriteRun MachineMemory.dictWriteU32 at hok ⊢
    unfold dictWriteSize
    dsimp only at hok ⊢
    split at hok
    · exact absurd hok (by simp)
    · rename_i u heq
      dsimp only
      rw [getDictPtr_setDictPtr]
      have hv := validateAccess_ok _ _ _ _ _ _ heq
      unfold MachineMemory.getFreeDataSegment at hv
      dsimp only at hv
      unfold wadd16 at hv ⊢
      omega
  | opcodeWrite op =>
    unfold MachineMemory.dictWriteRun MachineMemory.dictWriteOpcode
      MachineMemory.dictWriteU8 at hok ⊢
    unfold dictWriteSize
    dsimp only at hok ⊢
    split at hok
    · exact absurd hok (by simp)
    · rename_i u heq
      dsimp only
      rw [getDictPtr_setDictPtr]
      have hv := validateAccess_ok _ _ _ _ _ _ heq
      unfold MachineMemory.getFreeDataSegment at hv
      dsimp only at hv
      unfold wadd16
      omega
  | sizedStringWrite a =>
    have hlen : m.rawMemory.readU8 a < 256 := hb a
    unfold MachineMemory.dictWriteRun MachineMemory.dictWriteSizedString at hok ⊢
    unfold dictWriteSize
    dsimp only at hok ⊢
    split at hok
    · exact absurd hok (by simp)
    · rename_i u1 heq1
      split at hok
      · exact absurd hok (by simp)
      · rename_i u2 heq2
        dsimp only
        rw [getDictPtr_setDictPtr]
        have hv := validateAccess_ok _ _ _ _ _ _ heq2
        unfold MachineMemory.getFreeDataSegment at hv
        dsimp only at hv
        unfold wadd16 at hv ⊢
        omega

lemma mem_zero_byteBounded : Mem.zero.byteBounded := by
  intro x
  unfold Mem.zero Mem.readU8
  dsimp only
  omega

lemma initial_byteBounded : MachineMemory.initial.rawMemory.byteBounded := by
  unfold MachineMemory.initial MachineMemory.resetBuiltinVars
  dsimp only
  exact byteBounded_writeU16 _ _ _ (byteBounded_writeU16 _ _ _
    (byteBounded_writeU16 _ _ _ (byteBounded_writeU16 _ _ _ mem_zero_byteBounded)))

/-- C10.  For every sequence of dictionary writes that all succeed, the
`HERE` variable afterwards equals `HERE` before plus the total byte
count (1 per `u8`/opcode, 2 per `u16`, 4 per `u32`, 1 + length per
sized string), and every individual `u8`/`u16`/`u32` write validates
its target byte range against the free-data segment (a sized string
additionally validates its source string, and its destination check
spans `[HERE, HERE+1+length]`, one byte beyond the written range).
The two well-formedness hypotheses say the state is one a real `u16`
machine can be in: arena bytes below 256 and the data-stack pointer
below `2^16`. -/
theorem dictWritesAdvanceHere :
    (∀ (m : MachineMemory) (ws : List DictWrite),
        m.rawMemory.byteBounded → m.dataStackPtr < 65536 →
        (m.dictWriteSeq ws).2 = Except.ok () →
        (m.dictWriteSeq ws).1.getDictPtr = m.getDictPtr + dictWriteSeqSize m ws)
      ∧ (∀ (m : MachineMemory) (w : DictWrite),
          m.rawMemory.byteBounded → m.dataStackPtr < 65536 →
          (m.dictWriteRun w).2 = Except.ok () →
          (m.dictWriteRun w).1.getDictPtr = m.getDictPtr + dictWriteSize m w)
      ∧ (∀ (m : MachineMemory) (v : Nat),
          (m.dictWriteU8 v).2 = Except.ok () →
          m.rawMemory.validateAccess m.getDictPtr m.getDictPtr
            m.getFreeDataSegment.1 m.getFreeDataSegment.2 = Except.ok ())
      ∧ (∀ (m : MachineMemory) (v : Nat),
          (m.dictWriteU16 v).2 = Except.ok () →
          m.rawMemory.validateAccess m.getDictPtr (wadd16 m.getDictPtr 1)
            m.getFreeDataSegment.1 m.getFreeDataSegment.2 = Except.ok ())
      ∧ ∀ (m : MachineMemory) (v : Nat),
          (m.dictWriteU32 v).2 = Except.ok () →
          m.rawMemory.validateAccess m.getDictPtr (wadd16 m.getDictPtr 3)
            m.getFreeDataSegment.1 m.getFreeDataSegment.2 = Except.ok () := by
  refine ⟨?_, dictWriteRun_here, ?_, ?_, ?_⟩
  · intro m ws
    induction ws generalizing m with
    | nil =>
      intro hb hsp hok
      unfold MachineMemory.dictWriteSeq dictWriteSeqSize
      dsimp only
      omega
    | cons w rest ih =>
      intro hb hsp hok
      unfold MachineMemory.dictWriteSeq at hok ⊢
      unfold dictWriteSeqSize
      split at hok
      · exact absurd hok (by simp)
      · rename_i m2 u heq
        have hb2 : m2.rawMemory.byteBounded := by
          have hx := dictWriteRun_byteBounded m w hb
          rw [heq] at hx
          exact hx
        have hsp2 : m2.dataStackPtr < 65536 := by
          have hx := dictWriteRun_dataStackPtr m w
          rw [heq] at hx
          dsimp only at hx
          omega
        have hstep : m2.getDictPtr = m.getDictPtr + dictWriteSize m w := by
          have hx := dictWriteRun_here m w hb hsp (by rw [heq])
          rw [heq] at hx
          exact hx
        have hih := ih m2 hb2 hsp2 hok
        rw [heq]
        dsimp only
        omega
  · intro m v hok
    unfold MachineMemory.dictWriteU8 at hok
    dsimp only at hok
    split at hok
    · exact absurd hok (by simp)
    · rename_i u heq
      cases u
      exact heq
  · intro m v hok
    unfold MachineMemory.dictWriteU16 at hok
    dsimp only at hok
    split at hok
    · exact absurd hok (by simp)
    · rename_i u heq
      cases u
      exact heq
  · intro m v hok
    unfold MachineMemory.dictWriteU32 at hok
    dsimp only at hok
    split at hok
    · exact absurd hok (by simp)
    · rename_i u heq
      cases u
      exact heq

/-- Witness for C10: on the initial machine the sequence u8, u16, u32,
sized string (at the zeroed address 200, so an empty string) succeeds
and advances `HERE` from 0 by exactly 1 + 2 + 4 + 1 = 8 bytes. -/
theorem dictWritesAdvanceHereWitness :
    (MachineMemory.initial.dictWriteSeq
        [DictWrite.u8Write 7, DictWrite.u16Write 57005, DictWrite.u32Write 5,
          DictWrite.sizedStringWrite 200]).2 = Except.ok ()
      ∧ (MachineMemory.initial.dictWriteSeq
          [DictWrite.u8Write 7, DictWrite.u16Write 57005, DictWrite.u32Write 5,
            DictWrite.sizedStringWrite 200]).1.getDictPtr =
          MachineMemory.initial.getDictPtr + dictWriteSeqSize MachineMemory.initial
            [DictWrite.u8Write 7, DictWrite.u16Write 57005, DictWrite.u32Write 5,
              DictWrite.sizedStringWrite 200]
      ∧ dictWriteSeqSize MachineMemory.initial
          [DictWrite.u8Write 7, DictWrite.u16Write 57005, DictWrite.u32Write 5,
            DictWrite.sizedStringWrite 200] = 8 := by
  have hok : (MachineMemory.initial.dictWriteSeq
      [DictWrite.u8Write 7, DictWrite.u16Write 57005, DictWrite.u32Write 5,
        DictWrite.sizedStringWrite 200]).2 = Except.ok () := by rfl
  refine ⟨hok, ?_, by rfl⟩
  exact dictWritesAdvanceHere.1 MachineMemory.initial _ initial_byteBounded (by decide) hok

/-- C3 (amended).  The control-flow marker words that do check the state
(`IF`, `ELSE`, `THEN`, `BEGIN`, `EXIT`) fail in interpreter state with
`IllegalMode{expected: compiler, actual: interpreter}`, performing no
dictionary write and no data-stack change (the returned machine is the
input machine).  `WHILE` and `REPEAT` perform no such check (see the
counterexample). -/
theorem controlFlowWordsRequireCompileState (machine : Machine) (nameAddress v : Nat)
    (hok : ReadableSizedString.new machine.memory.rawMemory nameAddress
        machine.memory.rawMemory.addressRangeStart machine.memory.rawMemory.addressRangeEnd =
          Except.ok v)
    (hstate : machine.memory.getState = MachineState.interpreter) :
    (ReadableSizedString.asBytes machine.memory.rawMemory nameAddress = [73, 70] →
        processBuiltinWord machine nameAddress = some (machine,
          Except.error (MachineError.illegalMode MachineState.compiler MachineState.interpreter)))
      ∧ (ReadableSizedString.asBytes machine.memory.rawMemory nameAddress = [69, 76, 83, 69] →
          processBuiltinWord machine nameAddress = some (machine,
            Except.error (MachineError.illegalMode MachineState.compiler MachineState.interpreter)))
      ∧ (ReadableSizedString.asBytes machine.memory.rawMemory nameAddress = [84, 72, 69, 78] →
          processBuiltinWord machine nameAddress = some (machine,
            Except.error (MachineError.illegalMode MachineState.compiler MachineState.interpreter)))
      ∧ (ReadableSizedString.asBytes machine.memory.rawMemory nameAddress = [66, 69, 71, 73, 78] →
          processBuiltinWord machine nameAddress = some (machine,
            Except.error (MachineError.illegalMode MachineState.compiler MachineState.interpreter)))
      ∧ (ReadableSizedString.asBytes machine.memory.rawMemory nameAddress = [69, 88, 73, 84] →
          processBuiltinWord machine nameAddress = some (machine,
            Except.error (MachineError.illegalMode MachineState.compiler MachineState.interpreter))) := by
  have hexpect : machine.expectState MachineState.compiler =
      Except.error (MachineError.illegalMode MachineState.compiler MachineState.interpreter) := by
    unfold Machine.expectState
    rw [hstate]
    rw [if_pos (by decide)]
  refine ⟨?_, ?_, ?_, ?_, ?_⟩ <;>
    · intro hname
      unfold processBuiltinWord
      rw [hok]
      dsimp only
      rw [hname]
      norm_num
      first
        | unfold processIfWord
        | unfold processElseWord
        | unfold processThenWord
        | unfold processBeginWord
        | unfold processExitWord
      rw [hexpect]

/-- Witness for C3: dispatching `IF` at address 100 on the initial
machine (interpreter state) fails with the mode error and returns the
machine unchanged. -/
theorem controlFlowWordsRequireCompileStateWitness :
    processBuiltinWord
        (Machine.mk { MachineMemory.initial with rawMemory :=
          ((MachineMemory.initial.rawMemory.writeU8 100 2).writeU8 101 73).writeU8 102 70 } [] [])
        100 =
      some (Machine.mk { MachineMemory.initial with rawMemory :=
          ((MachineMemory.initial.rawMemory.writeU8 100 2).writeU8 101 73).writeU8 102 70 } [] [],
        Except.error (MachineError.illegalMode MachineState.compiler MachineState.interpreter)) :=
  (controlFlowWordsRequireCompileState
    (Machine.mk { MachineMemory.initial with rawMemory :=
      ((MachineMemory.initial.rawMemory.writeU8 100 2).writeU8 101 73).writeU8 102 70 } [] [])
    100 100 (by rfl) (by rfl)).1 (by rfl)

/-- Counterexample for C3 as stated: dispatching `WHILE` (resp.
`REPEAT`) in interpreter state does not fail with `IllegalMode` — the
source has no `expect_state` check in these two arms, so on an empty
data stack they fail with the stack-effect `MemoryAccessError`
instead. -/
theorem whileRepeatNoStateCheckCounterexample :
    processBuiltinWord
        (Machine.mk { MachineMemory.initial with rawMemory :=
          (((((MachineMemory.initial.rawMemory.writeU8 100 5).writeU8 101 87).writeU8
            102 72).writeU8 103 73).writeU8 104 76).writeU8 105 69 } [] []) 100 =
        some (Machine.mk { MachineMemory.initial with rawMemory :=
          (((((MachineMemory.initial.rawMemory.writeU8 100 5).writeU8 101 87).writeU8
            102 72).writeU8 103 73).writeU8 104 76).writeU8 105 69 } [] [],
          Except.error (MachineError.memoryAccessError
            (MemoryAccessError.mk 64510 64513 0 64511)))
      ∧ MachineError.memoryAccessError (MemoryAccessError.mk 64510 64513 0 64511) ≠
          MachineError.illegalMode MachineState.compiler MachineState.interpreter
      ∧ ({ MachineMemory.initial with rawMemory :=
          (((((MachineMemory.initial.rawMemory.writeU8 100 5).writeU8 101 87).writeU8
            102 72).writeU8 103 73).writeU8 104 76).writeU8 105 69 } : MachineMemory).getState =
          MachineState.interpreter
      ∧ processBuiltinWord
          (Machine.mk { MachineMemory.initial with rawMemory :=
            ((((((MachineMemory.initial.rawMemory.writeU8 100 6).writeU8 101 82).writeU8
              102 69).writeU8 103 80).writeU8 104 69).writeU8 105 65).writeU8 106 84 } [] [])
            100 =
          some (Machine.mk { MachineMemory.initial with rawMemory :=
            ((((((MachineMemory.initial.rawMemory.writeU8 100 6).writeU8 101 82).writeU8
              102 69).writeU8 103 80).writeU8 104 69).writeU8 105 65).writeU8 106 84 } [] [],
            Except.error (MachineError.memoryAccessError
              (MemoryAccessError.mk 64512 64515 0 64511)))
      ∧ MachineError.memoryAccessError (MemoryAccessError.mk 64512 64515 0 64511) ≠
          MachineError.illegalMode MachineState.compiler MachineState.interpreter
      ∧ ({ MachineMemory.initial with rawMemory :=
          ((((((MachineMemory.initial.rawMemory.writeU8 100 6).writeU8 101 82).writeU8
            102 69).writeU8 103 80).writeU8 104 69).writeU8 105 65).writeU8 106 84 } :
              MachineMemory).getState = MachineState.interpreter :=
  ⟨rfl, by decide, rfl, rfl, by decide, rfl⟩

/-- C7 (amended).  Processing `:` in compiler state fails with
`IllegalMode{expected: interpreter, actual: compiler}` (the
`expect_state` gate fires first); the `IllegalCompilerState` error is
returned instead when the machine is in interpreter state while a
colon definition is still open (`current_word` set, as after `[` inside
a definition). -/
theorem colonWordStateErrors (machine : Machine) (nameAddress v : Nat)
    (hok : ReadableSizedString.new machine.memory.rawMemory nameAddress
        machine.memory.rawMemory.addressRangeStart machine.memory.rawMemory.addressRangeEnd =
          Except.ok v)
    (hname : ReadableSizedString.asBytes machine.memory.rawMemory nameAddress = [58]) :
    (machine.memory.getState = MachineState.compiler →
        processBuiltinWord machine nameAddress = some (machine,
          Except.error (MachineError.illegalMode MachineState.interpreter MachineState.compiler)))
      ∧ (machine.memory.getState = MachineState.interpreter →
          machine.memory.getCurrentWord.isSome = true →
          processBuiltinWord machine nameAddress =
            some (machine, Except.error MachineError.illegalCompilerState)) := by
  have hdisp : processBuiltinWord machine nameAddress = some (processColonWord machine) := by
    unfold processBuiltinWord
    rw [hok]
    dsimp only
    rw [hname]
    norm_num
  constructor
  · intro hstate
    rw [hdisp]
    unfold processColonWord Machine.expectState
    rw [hstate]
    rw [if_pos (by decide)]
  · intro hstate hcw
    rw [hdisp]
    unfold processColonWord Machine.expectState
    rw [hstate]
    rw [if_neg (by decide)]
    obtain ⟨w, hw⟩ := Option.isSome_iff_exists.mp hcw
    rw [hw]

/-- Witness for C7: both error paths at a concrete `:` word stored at
address 100 — once in compiler state, once in interpreter state with an
open definition (`HERE` 10, `current_word` 2). -/
theorem colonWordStateErrorsWitness :
    processBuiltinWord
        (Machine.mk { (MachineMemory.initial.setState MachineState.compiler) with rawMemory := ((MachineMemory.initial.setState MachineState.compiler).rawMemory.writeU8 100 1).writeU8 101 58 } [] []) 100 =
        some (Machine.mk { (MachineMemory.initial.setState MachineState.compiler) with rawMemory := ((MachineMemory.initial.setState MachineState.compiler).rawMemory.writeU8 100 1).writeU8 101 58 } [] [],
          Except.error (MachineError.illegalMode MachineState.interpreter MachineState.compiler))
      ∧ processBuiltinWord
          (Machine.mk { ((MachineMemory.initial.setDictPtr 10).setCurrentWord (some 2)) with rawMemory := (((MachineMemory.initial.setDictPtr 10).setCurrentWord (some 2)).rawMemory.writeU8 100 1).writeU8 101 58 } [] []) 100 =
          some (Machine.mk { ((MachineMemory.initial.setDictPtr 10).setCurrentWord (some 2)) with rawMemory := (((MachineMemory.initial.setDictPtr 10).setCurrentWord (some 2)).rawMemory.writeU8 100 1).writeU8 101 58 } [] [],
            Except.error MachineError.illegalCompilerState) := by
  constructor
  · exact (colonWordStateErrors _ 100 100 (by rfl) (by rfl)).1 (by rfl)
  · exact (colonWordStateErrors _ 100 100 (by rfl) (by rfl)).2 (by rfl) (by rfl)

/-- Counterexample for C7 as stated: in compiler state `:` fails with
`IllegalMode`, which is a different error than the claimed
`IllegalCompilerState`. -/
theorem colonWordCompilerStateCounterexample :
    processBuiltinWord
        (Machine.mk { (MachineMemory.initial.setState MachineState.compiler) with rawMemory := ((MachineMemory.initial.setState MachineState.compiler).rawMemory.writeU8 100 1).writeU8 101 58 } [] []) 100 =
        some (Machine.mk { (MachineMemory.initial.setState MachineState.compiler) with rawMemory := ((MachineMemory.initial.setState MachineState.compiler).rawMemory.writeU8 100 1).writeU8 101 58 } [] [],
          Except.error (MachineError.illegalMode MachineState.interpreter MachineState.compiler))
      ∧ MachineError.illegalMode MachineState.interpreter MachineState.compiler ≠
          MachineError.illegalCompilerState :=
  ⟨rfl, by decide⟩

lemma getState_write_below (m : MachineMemory) (b v : Nat) (hlt : b < m.reservedSpaceStart) :
    ({ m with rawMemory := m.rawMemory.writeU8 b v } : MachineMemory).getState = m.getState := by
  unfold MachineMemory.getState MachineMemory.getReservedAddress
  dsimp only
  rw [readU16_writeU8_ne]
  · simp [ReservedAddresses.intValue]
    omega
  · simp [ReservedAddresses.intValue]
    omega

lemma getDictPtr_write_below (m : MachineMemory) (b v : Nat) (hlt : b < m.reservedSpaceStart) :
    ({ m with rawMemory := m.rawMemory.writeU8 b v } : MachineMemory).getDictPtr = m.getDictPtr := by
  unfold MachineMemory.getDictPtr MachineMemory.getReservedAddress
  dsimp only
  rw [readU16_writeU8_ne]
  · simp [ReservedAddresses.intValue]
    omega
  · simp [ReservedAddresses.intValue]
    omega


/-- C6 (amended).  `IMMEDIATE` is not idempotent in the claimed sense:
whenever one application succeeds (in a well-formed byte arena, and with
the article body below the reserved-variable region so the one-byte
write cannot alias the reserved variables), the second application
changes nothing — the final memory after applying it twice is the
memory after applying it once — but it does not succeed again: it fails
with `UnexpectedArticleType`, because the first body byte is now `Noop`
instead of `DefaultArticleStart`. -/
theorem immediateSecondApplicationFails (machine : Machine)
    (hb : machine.memory.rawMemory.byteBounded)
    (hok : (processImmediateWord machine).2 = Except.ok ())
    (hbody : ∀ h, machine.memory.articlesNext = some h →
        ReadableArticle.bodyAddress machine.memory.rawMemory h <
          machine.memory.reservedSpaceStart) :
    processImmediateWord (processImmediateWord machine).1 =
      ((processImmediateWord machine).1, Except.error MachineError.unexpectedArticleType) := by
  have hok2 := hok
  unfold processImmediateWord at hok2
  split at hok2
  · exact absurd hok2 (by simp)
  · rename_i u heqS
    split at hok2
    · exact absurd hok2 (by simp)
    · rename_i hdr heqA
      dsimp only at hok2
      split at hok2
      · rename_i h1
        have hB : ReadableArticle.bodyAddress machine.memory.rawMemory hdr <
            machine.memory.reservedSpaceStart := hbody hdr heqA
        have hstate : machine.memory.getState = MachineState.interpreter := by
          unfold Machine.expectState at heqS
          split at heqS
          · exact absurd heqS (by simp)
          · rename_i hcond
            exact not_not.mp hcond
        have hfull : processImmediateWord machine = ({ machine with memory := { machine.memory with rawMemory := machine.memory.rawMemory.writeU8 (ReadableArticle.bodyAddress machine.memory.rawMemory hdr) OpCode.noop.intValue } }, Except.ok ()) := by
          unfold processImmediateWord
          rw [heqS]
          dsimp only
          rw [heqA]
          dsimp only
          rw [if_pos h1]
        have hmem1 : (processImmediateWord machine).1.memory = { machine.memory with rawMemory := machine.memory.rawMemory.writeU8 (ReadableArticle.bodyAddress machine.memory.rawMemory hdr) OpCode.noop.intValue } := by
          rw [hfull]
        have hreadName : (processImmediateWord machine).1.memory.rawMemory.readU8
            (ReadableArticle.nameAddress hdr) =
            machine.memory.rawMemory.readU8 (ReadableArticle.nameAddress hdr) := by
          rw [hmem1]
          dsimp only
          rw [readU8_writeU8]
          have hlen := hb (ReadableArticle.nameAddress hdr)
          have hne : ReadableArticle.nameAddress hdr ≠
              ReadableArticle.bodyAddress machine.memory.rawMemory hdr := by
            unfold ReadableArticle.bodyAddress ReadableArticle.nameAddress at hlen ⊢
            unfold wadd16 at hlen ⊢
            omega
          rw [if_neg hne]
        have hstate1 : (processImmediateWord machine).1.memory.getState =
            MachineState.interpreter := by
          rw [hmem1]
          rw [getState_write_below machine.memory _ _ hB]
          exact hstate
        have hdict1 : (processImmediateWord machine).1.memory.getDictPtr =
            machine.memory.getDictPtr := by
          rw [hmem1]
          exact getDictPtr_write_below machine.memory _ _ hB
        have hbodyEq : ReadableArticle.bodyAddress
            (processImmediateWord machine).1.memory.rawMemory hdr =
            ReadableArticle.bodyAddress machine.memory.rawMemory hdr := by
          unfold ReadableArticle.bodyAddress
          rw [hreadName]
        have heqA2 := heqA
        unfold MachineMemory.articlesNext at heqA2
        split at heqA2
        · exact absurd heqA2 (by simp)
        · rename_i addr heqL
          split at heqA2
          · rename_i a heqN
            simp only [Option.some.injEq] at heqA2
            have haddr : a = addr := readableArticle_new_eq _ _ _ _ _ heqN
            rw [heqA2] at haddr
            rw [← haddr] at heqL heqN
            rw [heqA2] at heqN
            have hseg1 : (processImmediateWord machine).1.memory.getUsedDictSegment =
                machine.memory.getUsedDictSegment := by
              unfold MachineMemory.getUsedDictSegment Mem.addressRangeStart
              rw [hdict1]
            have hvc : ReadableSizedString.validateContent
                (processImmediateWord machine).1.memory.rawMemory
                (ReadableArticle.nameAddress hdr)
                machine.memory.getUsedDictSegment.1 machine.memory.getUsedDictSegment.2 =
                ReadableSizedString.validateContent machine.memory.rawMemory
                  (ReadableArticle.nameAddress hdr)
                  machine.memory.getUsedDictSegment.1 machine.memory.getUsedDictSegment.2 := by
              unfold ReadableSizedString.validateContent Mem.validateAccess
              rw [hreadName]
            have hnew1 : ReadableArticle.new (processImmediateWord machine).1.memory.rawMemory
                hdr machine.memory.getUsedDictSegment.1 machine.memory.getUsedDictSegment.2 =
                Except.ok hdr := by
              unfold ReadableArticle.new
              rw [hvc]
              unfold ReadableArticle.new at heqN
              exact heqN
            have hA1 : (processImmediateWord machine).1.memory.articlesNext = some hdr := by
              unfold MachineMemory.articlesNext
              have hlast1 : (processImmediateWord machine).1.memory.lastArticlePtr =
                  machine.memory.lastArticlePtr := by
                rw [hmem1]
              rw [hlast1, heqL]
              dsimp only
              rw [hseg1]
              rw [hnew1]
            have hs1 : (processImmediateWord machine).1.expectState MachineState.interpreter =
                Except.ok () := by
              unfold Machine.expectState
              rw [hstate1]
              rw [if_neg (by decide)]
            have hrd : (processImmediateWord machine).1.memory.rawMemory.readU8
                (ReadableArticle.bodyAddress machine.memory.rawMemory hdr) = 0 := by
              rw [hmem1]
              dsimp only
              rw [readU8_writeU8]
              rw [if_pos rfl]
              rfl
            rw [hfull] at hs1 hA1 hbodyEq hrd ⊢
            unfold processImmediateWord
            rw [hs1]
            dsimp only
            rw [hA1]
            dsimp only
            rw [hbodyEq, hrd]
            rw [if_neg (by simp [OpCode.intValue])]
          · exact absurd heqA2 (by simp)
      · exact absurd hok2 (by simp)

/-- Counterexample for C6 as stated: on a machine whose dictionary holds
one article (header 0, name `a`, body byte `DefaultArticleStart` at
address 4, `HERE` 5), the first `IMMEDIATE` succeeds but the second
fails with `UnexpectedArticleType`, so applying it twice is not "the
same success" as applying it once. -/
theorem immediateTwiceCounterexample :
    (processImmediateWord (Machine.mk { (MachineMemory.initial.setDictPtr 5) with lastArticlePtr := some 0, rawMemory := (((((MachineMemory.initial.setDictPtr 5).rawMemory.writeU8 0 255).writeU8 1 255).writeU8 2 1).writeU8 3 97).writeU8 4 1 } [] [])).2 = Except.ok ()
      ∧ (processImmediateWord (processImmediateWord (Machine.mk { (MachineMemory.initial.setDictPtr 5) with lastArticlePtr := some 0, rawMemory := (((((MachineMemory.initial.setDictPtr 5).rawMemory.writeU8 0 255).writeU8 1 255).writeU8 2 1).writeU8 3 97).writeU8 4 1 } [] [])).1).2 =
          Except.error MachineError.unexpectedArticleType
      ∧ (Except.error MachineError.unexpectedArticleType : Except MachineError Unit) ≠
          Except.ok () :=
  ⟨rfl, rfl, by simp⟩

/-- Witness for C6 at the same concrete machine: the amended theorem
applies and its conclusion evaluates. -/
theorem immediateSecondApplicationFailsWitness :
    processImmediateWord (processImmediateWord (Machine.mk { (MachineMemory.initial.setDictPtr 5) with lastArticlePtr := some 0, rawMemory := (((((MachineMemory.initial.setDictPtr 5).rawMemory.writeU8 0 255).writeU8 1 255).writeU8 2 1).writeU8 3 97).writeU8 4 1 } [] [])).1 =
      ((processImmediateWord (Machine.mk { (MachineMemory.initial.setDictPtr 5) with lastArticlePtr := some 0, rawMemory := (((((MachineMemory.initial.setDictPtr 5).rawMemory.writeU8 0 255).writeU8 1 255).writeU8 2 1).writeU8 3 97).writeU8 4 1 } [] [])).1, Except.error MachineError.unexpectedArticleType) := by
  apply immediateSecondApplicationFails (Machine.mk { (MachineMemory.initial.setDictPtr 5) with lastArticlePtr := some 0, rawMemory := (((((MachineMemory.initial.setDictPtr 5).rawMemory.writeU8 0 255).writeU8 1 255).writeU8 2 1).writeU8 3 97).writeU8 4 1 } [] [])
  · apply byteBounded_writeU8
    apply byteBounded_writeU8
    apply byteBounded_writeU8
    apply byteBounded_writeU8
    apply byteBounded_writeU8
    unfold MachineMemory.setDictPtr
    dsimp only
    apply byteBounded_writeU16
    exact initial_byteBounded
  · rfl
  · intro h hh
    have h0 : some (0 : Nat) = some h := Eq.trans (by rfl) hh
    have h1 : (0 : Nat) = h := Option.some.inj h0
    rw [← h1]
    decide
